import Mathlib

/-!
# Verification of the bestdoc inventory manager's stock ledger and undo engine

Shallow embedding of the stock-mutation, movement-ledger and
compensating-action (undo) logic of the repository:

* `models.py` — `Item.remove_stock`, `Item.add_stock`, `Item.remove_boxes`,
  `Item.total_pieces`;
* `routes.py` — `handle_transfer`, `handle_multi_transfer`, `handle_usage`,
  `handle_wastage`, `handle_manual_addition`, `handle_bag_management`
  (delete branch), `handle_inventory_audit` (quantity-update loop),
  `undo_last_action`;
* `consolidate_items.py` — `consolidate_duplicate_items`.

Machine integers of the source (Python ints on SQLAlchemy Integer columns)
are modelled as `Int`.  Database rows are lists of structures; a SQLAlchemy
`filter_by(...).first()` is `List.find?` in row-insertion order, a
`query.filter(...).delete()` is `List.filter` with the negated predicate, and
`db.session.delete(row)` removes the row with that primary key.  The fields of
the `UndoAction`, `BagMinimum`, `PermanentDeletion` and `InventoryAudit`
models (absent from the snapshot of `models.py`, which predates them) are
reconstructed exactly from their uses in `routes.py` and `app.py`.
-/

/-! ## Unit converter: `models.py`, class `Item`

`total_pieces`: `(boxes × units_per_box) + loose_pieces` when the linked
product has a truthy (non-`None`, non-zero) `units_per_box`, otherwise just
`loose_pieces`.  `u = none` models a missing product or a `NULL`
`units_per_box`. -/

def total_pieces (boxes loose : Int) (u : Option Int) : Int :=
  match u with
  | some up => if up ≠ 0 then boxes * up + loose else loose
  | none => loose

/-- `Item.remove_stock` (`models.py` lines 173–199): remove `n` pieces,
draining loose pieces first and then breaking
`(remaining + units_per_box - 1) // units_per_box` whole boxes.  Python `//`
is floor division, hence `Int.fdiv`.  The two `ValueError`s are the
`InsufficientStock` and `InsufficientWholeBoxes` conditions. -/
def remove_stock (boxes loose : Int) (u : Option Int) (n : Int) :
    Except String (Int × Int) :=
  if total_pieces boxes loose u < n then
    .error "Not enough stock available"
  else
    -- first remove from loose pieces
    let loose1 := if n ≤ loose then loose - n else 0
    let remaining := if n ≤ loose then 0 else n - loose
    -- then break boxes if needed
    match u with
    | some up =>
      if 0 < remaining ∧ up ≠ 0 then
        let boxes_to_break := (remaining + up - 1).fdiv up
        if boxes < boxes_to_break then
          .error "Not enough boxes to break"
        else
          .ok (boxes - boxes_to_break, boxes_to_break * up - remaining)
      else
        .ok (boxes, loose1)
    | none => .ok (boxes, loose1)

/-! ## A single stock record under the mutating operations (`routes.py`)

`Rec1` carries the `boxes`/`loose_pieces` columns together with the legacy
`quantity` column that the route handlers mutate directly.  `StockOp` is one
mutating step applied to this single record; a step whose source-level guard
fails (flash + redirect, or a raised `ValueError` rolled back) leaves the
record unchanged. -/

structure Rec1 where
  boxes : Int
  loose : Int
  qty : Int
deriving DecidableEq

inductive StockOp where
  /-- `Item.add_stock(boxes, pieces)` (`models.py`). -/
  | addStock (b p : Int)
  /-- `Item.remove_stock(pieces_to_remove)` (`models.py`). -/
  | removeStockOp (n : Int)
  /-- `Item.remove_boxes(boxes_to_remove)` (`models.py`). -/
  | removeBoxesOp (k : Int)
  /-- `handle_usage` (`routes.py` lines 922–988): guarded decrement of
  `quantity`. -/
  | usage (q : Int)
  /-- `handle_wastage` (`routes.py` lines 1274–1314): guarded decrement. -/
  | wastage (q : Int)
  /-- the source-side decrement of `handle_transfer` (`routes.py` lines
  649–754), with its guards. -/
  | transferOut (q : Int)
  /-- the per-item quantity update of `handle_inventory_audit`
  (`routes.py` lines 2152–2180) restricted to this single record: a negative
  delta reduces the quantity, clamping at zero; a positive delta is added;
  a record with quantity ≤ 0 is outside the `Item.quantity > 0` filter. -/
  | auditAdjust (delta : Int)
  /-- the `usage` branch of `undo_last_action` (`routes.py` lines
  1671–1692): restore the used quantity. -/
  | undoUsage (q : Int)

def applyOp (u : Option Int) (r : Rec1) : StockOp → Rec1
  | .addStock b p =>
      let b' := r.boxes + b
      let l' := r.loose + p
      ⟨b', l', total_pieces b' l' u⟩
  | .removeStockOp n =>
      match remove_stock r.boxes r.loose u n with
      | .ok (b', l') => ⟨b', l', total_pieces b' l' u⟩
      | .error _ => r
  | .removeBoxesOp k =>
      if k ≤ r.boxes then
        ⟨r.boxes - k, r.loose, total_pieces (r.boxes - k) r.loose u⟩
      else r
  | .usage q =>
      if q ≤ 0 then r
      else if r.qty < q then r
      else { r with qty := r.qty - q }
  | .wastage q =>
      if q ≤ 0 then r
      else if r.qty < q then r
      else { r with qty := r.qty - q }
  | .transferOut q =>
      if q ≤ 0 then r
      else if r.qty < q then r
      else { r with qty := r.qty - q }
  | .auditAdjust delta =>
      if r.qty ≤ 0 then r
      else if delta < 0 then
        if r.qty ≤ -delta then { r with qty := 0 }
        else { r with qty := r.qty + delta }
      else { r with qty := r.qty + delta }
  | .undoUsage q => { r with qty := r.qty + q }

/-- Parameters a route handler would only ever produce: quantities added or
restored are never negative (form inputs are parsed positive).  Guarded
decrements carry no side condition: their guards are in the code. -/
def StockOp.wf : StockOp → Prop
  | .addStock b p => 0 ≤ b ∧ 0 ≤ p
  | .undoUsage q => 0 ≤ q
  | _ => True

/-- The record-level invariant of §3 of the spec: no stored quantity is
negative. -/
def Rec1.Inv (r : Rec1) : Prop := 0 ≤ r.boxes ∧ 0 ≤ r.loose ∧ 0 ≤ r.qty

/-- A usable packaging ratio: absent, or a non-negative units-per-box. -/
def UOk (u : Option Int) : Prop := ∀ up ∈ u, 0 ≤ up

/-! ## Data model (`models.py` + the columns reconstructed from `routes.py`)

Dates are encoded as an abstract `Option Nat` (only equality of expiry dates
is ever used by the logic under verification).  `itype` is the `type` column.
-/

structure ItemRow where
  id : Nat
  name : String
  itype : String
  brand : Option String
  size : Option String
  genericName : Option String
  quantity : Int
  expiry : Option Nat
  bagId : Nat
  productId : Option Nat
deriving DecidableEq

structure BagRow where
  id : Nat
  name : String
  description : String
  location : String
deriving DecidableEq

structure ProductRow where
  id : Nat
  name : String
  ptype : String
  minimumStock : Int
deriving DecidableEq

structure MovementRow where
  itemName : String
  itemType : String
  itemSize : Option String
  quantity : Int
  movementType : String
  fromBag : Option String
  toBag : Option String
  notes : String
  patientName : Option String
  expiry : Option Nat
  timestamp : Nat
deriving DecidableEq

structure BagMinimumRow where
  bagId : Nat
  productId : Nat
  minimumQuantity : Int
deriving DecidableEq

structure PermanentDeletionRow where
  entityType : String
  entityName : String
  userId : Nat
  isRestored : Bool
deriving DecidableEq

structure InventoryAuditRow where
  id : Nat
  userId : Nat
  bagId : Option Nat
  itemsChecked : Nat
  notes : String
deriving DecidableEq

/-- One entry of the `transfers` list in a `multi_transfer` undo payload
(`routes.py` lines 861–865): name, quantity, source bag name. -/
structure TransferRec where
  name : String
  quantity : Int
  fromBag : String
deriving DecidableEq

/-- One entry of the `changes` list in an `inventory_audit` undo payload
(`routes.py` lines 2205–2214). -/
structure AuditChange where
  itemName : String
  itemType : String
  itemSize : Option String
  quantityChange : Int
  movementType : String
  notes : String
deriving DecidableEq

/-- The JSON `action_data` payload of an `UndoAction`, one constructor per
`action_type` produced in `routes.py`. -/
inductive UndoData where
  | addItem (itemName itemType : String) (brand size : Option String)
      (quantity : Int) (expiry : Option Nat) (bagId : Nat) (bagName : String)
      (productId : Option Nat) (productCreated : Bool)
  | transferData (itemId fromBagId toBagId : Nat) (quantity : Int)
      (itemName itemType : String) (brand size : Option String)
      (expiry : Option Nat) (productId : Option Nat)
      (existingItemId : Option Nat) (newItemCreated sourceItemDeleted : Bool)
      (originalSourceQuantity : Int)
  | multiTransfer (toBagId : Nat) (toBagName : String)
      (transfers : List TransferRec) (totalItems : Nat)
  | usageData (itemId : Nat) (quantity : Int)
      (itemName bagName patientName notes : String) (originalQuantity : Int)
  | deleteBag (bagId : Nat) (bagName bagDescription bagLocation : String)
      (transferredItems : List Nat) (deletedMinimums : List BagMinimumRow)
  | inventoryAudit (auditId : Nat) (changes : List AuditChange)
deriving DecidableEq

structure UndoActionRow where
  id : Nat
  actionType : String
  data : UndoData
  description : String
  userId : Nat
  timestamp : Nat
  isUsed : Bool
deriving DecidableEq

/-- The persisted state: one list per table.  Lists hold rows in insertion
order except `undoActions`, kept newest-first (new rows are prepended with a
strictly larger timestamp, so its head-to-tail order is exactly the
`ORDER BY timestamp DESC` used by `undo_last_action`).  `next*` counters model
the autoincrement primary keys; `now` models the wall clock. -/
structure DB where
  bags : List BagRow
  items : List ItemRow
  products : List ProductRow
  movements : List MovementRow
  undoActions : List UndoActionRow
  permDeletions : List PermanentDeletionRow
  bagMinimums : List BagMinimumRow
  audits : List InventoryAuditRow
  nextItemId : Nat
  nextBagId : Nat
  nextProductId : Nat
  nextUndoId : Nat
  now : Nat
deriving DecidableEq

/-! ## Query helpers -/

def findItemById (items : List ItemRow) (iid : Nat) : Option ItemRow :=
  items.find? (fun i => decide (i.id = iid))

def findBagById (bags : List BagRow) (bid : Nat) : Option BagRow :=
  bags.find? (fun b => decide (b.id = bid))

def findBagByName (bags : List BagRow) (nm : String) : Option BagRow :=
  bags.find? (fun b => decide (b.name = nm))

def findProductByName (products : List ProductRow) (nm : String) :
    Option ProductRow :=
  products.find? (fun p => decide (p.name = nm))

/-- The exact-descriptive-key `filter_by(...).first()` used by
`handle_transfer`, `handle_multi_transfer` and `handle_manual_addition` to
find a merge target: name, type, brand, size, expiry date and bag must all
match. -/
def findItemByKey (items : List ItemRow) (name ty : String)
    (brand size : Option String) (expiry : Option Nat) (bagId : Nat) :
    Option ItemRow :=
  items.find? (fun i =>
    decide (i.name = name ∧ i.itype = ty ∧ i.brand = brand ∧ i.size = size ∧
      i.expiry = expiry ∧ i.bagId = bagId))

/-- Mutate the row with primary key `iid` in place. -/
def updateItem (items : List ItemRow) (iid : Nat) (f : ItemRow → ItemRow) :
    List ItemRow :=
  items.map (fun i => if i.id = iid then f i else i)

/-- `db.session.delete(item)`. -/
def removeItemById (items : List ItemRow) (iid : Nat) : List ItemRow :=
  items.filter (fun i => !decide (i.id = iid))

/-- `last_action.is_used = True` on the row fetched by the undo query. -/
def markUsed (acts : List UndoActionRow) (aid : Nat) : List UndoActionRow :=
  acts.map (fun a => if a.id = aid then { a with isUsed := true } else a)

/-- `UndoAction.query.filter_by(user_id=..., is_used=False)
.order_by(UndoAction.timestamp.desc()).first()` — the list is newest-first. -/
def newestUnconsumed (s : DB) (uid : Nat) : Option UndoActionRow :=
  s.undoActions.find? (fun a => decide (a.userId = uid) && !a.isUsed)

/-! ## Mutating route handlers (`routes.py`)

Each handler returns the new state together with a success flag; a failed
guard (flash + redirect, or rolled-back exception) returns the state
unchanged with `false`. -/

/-- `handle_usage` (`routes.py` lines 922–988). -/
def handle_usage (s : DB) (uid : Nat) (itemId : Nat) (q : Int)
    (patient notes : String) : DB × Bool :=
  if q ≤ 0 then (s, false)
  else if patient = "" then (s, false)
  else
    match findItemById s.items itemId with
    | none => (s, false)
    | some item =>
      if item.quantity < q then (s, false)
      else
        match findBagById s.bags item.bagId with
        | none => (s, false)
        | some bag =>
          let items' := updateItem s.items itemId
            (fun i => { i with quantity := i.quantity - q })
          let mv : MovementRow :=
            { itemName := item.name, itemType := item.itype,
              itemSize := item.size, quantity := q, movementType := "usage",
              fromBag := some bag.name, toBag := none,
              notes := if notes = "" then
                  "Used " ++ toString q ++ " units for patient " ++ patient
                else notes,
              patientName := some patient, expiry := item.expiry,
              timestamp := s.now }
          let ua : UndoActionRow :=
            { id := s.nextUndoId, actionType := "usage",
              data := .usageData itemId q item.name bag.name patient notes
                item.quantity,
              description := "Used " ++ toString q ++ " " ++ item.name ++
                " for patient " ++ patient,
              userId := uid, timestamp := s.now, isUsed := false }
          ({ s with
              items := items', movements := s.movements ++ [mv],
              undoActions := ua :: s.undoActions,
              nextUndoId := s.nextUndoId + 1, now := s.now + 1 }, true)

/-- `handle_wastage` (`routes.py` lines 1274–1314).  Note: it records a
`MovementRow` but no `UndoActionRow`. -/
def handle_wastage (s : DB) (itemId : Nat) (q : Int) (reason : String) :
    DB × Bool :=
  if q ≤ 0 then (s, false)
  else
    match findItemById s.items itemId with
    | none => (s, false)
    | some item =>
      if item.quantity < q then (s, false)
      else
        match findBagById s.bags item.bagId with
        | none => (s, false)
        | some bag =>
          let items' := updateItem s.items itemId
            (fun i => { i with quantity := i.quantity - q })
          let mv : MovementRow :=
            { itemName := item.name, itemType := item.itype,
              itemSize := item.size, quantity := q,
              movementType := "wastage", fromBag := some bag.name,
              toBag := none,
              notes := if reason = "" then
                  "Wastage of " ++ toString q ++ " units"
                else reason,
              patientName := none, expiry := item.expiry, timestamp := s.now }
          ({ s with
              items := items', movements := s.movements ++ [mv],
              now := s.now + 1 }, true)

/-- `handle_transfer` (`routes.py` lines 649–754): move `q` units of item
`itemId` to bag `toBagId`, merging into an exact-key match at the destination
or creating a new row there; the source row is deleted when it reaches zero.
-/
def handle_transfer (s : DB) (uid : Nat) (itemId : Nat) (toBagId : Nat)
    (q : Int) : DB × Bool :=
  if q ≤ 0 then (s, false)
  else
    match findItemById s.items itemId with
    | none => (s, false)
    | some item =>
      match findBagById s.bags toBagId with
      | none => (s, false)
      | some toBag =>
        if item.quantity < q then (s, false)
        else if item.bagId = toBagId then (s, false)
        else
          match findBagById s.bags item.bagId with
          | none => (s, false)
          | some fromBag =>
            let existing := findItemByKey s.items item.name item.itype
              item.brand item.size item.expiry toBagId
            let items1 :=
              match existing with
              | some e => updateItem s.items e.id
                  (fun i => { i with quantity := i.quantity + q })
              | none => s.items ++
                  [{ id := s.nextItemId, name := item.name,
                     itype := item.itype, brand := item.brand,
                     size := item.size, genericName := none, quantity := q,
                     expiry := item.expiry, bagId := toBagId,
                     productId := item.productId }]
            let items2 := updateItem items1 itemId
              (fun i => { i with quantity := i.quantity - q })
            let sourceDeleted := item.quantity - q ≤ 0
            let items3 :=
              if sourceDeleted then removeItemById items2 itemId else items2
            let mv : MovementRow :=
              { itemName := item.name, itemType := item.itype,
                itemSize := item.size, quantity := q,
                movementType := "transfer", fromBag := some fromBag.name,
                toBag := some toBag.name,
                notes := "Transferred " ++ toString q ++ " units",
                patientName := none, expiry := none, timestamp := s.now }
            let ua : UndoActionRow :=
              { id := s.nextUndoId, actionType := "transfer",
                data := .transferData item.id fromBag.id toBag.id q item.name
                  item.itype item.brand item.size item.expiry item.productId
                  (existing.map (·.id)) existing.isNone sourceDeleted
                  item.quantity,
                description := "Transfer " ++ toString q ++ " " ++ item.name ++
                  " from " ++ fromBag.name ++ " to " ++ toBag.name,
                userId := uid, timestamp := s.now, isUsed := false }
            ({ s with
                items := items3, movements := s.movements ++ [mv],
                undoActions := ua :: s.undoActions,
                nextItemId :=
                  if existing.isNone then s.nextItemId + 1 else s.nextItemId,
                nextUndoId := s.nextUndoId + 1, now := s.now + 1 }, true)

/-- One iteration of the per-item loop of `handle_multi_transfer`
(`routes.py` lines 792–870); a failed validation `continue`s, leaving the
accumulated state untouched.  The accumulator also carries the
`successful_transfers` list. -/
def multiTransferStep (toBagId : Nat) (acc : DB × List TransferRec)
    (req : Nat × Int) : DB × List TransferRec :=
  let (s, succs) := acc
  let (itemId, q) := req
  match findItemById s.items itemId with
  | none => acc
  | some item =>
    if item.quantity < q then acc
    else if item.bagId = toBagId then acc
    else
      match findBagById s.bags item.bagId with
      | none => acc
      | some fromBag =>
        match findBagById s.bags toBagId with
        | none => acc
        | some toBag =>
          let existing := findItemByKey s.items item.name item.itype
            item.brand item.size item.expiry toBagId
          let items1 :=
            match existing with
            | some e => updateItem s.items e.id
                (fun i => { i with quantity := i.quantity + q })
            | none => s.items ++
                [{ id := s.nextItemId, name := item.name,
                   itype := item.itype, brand := item.brand,
                   size := item.size, genericName := none, quantity := q,
                   expiry := item.expiry, bagId := toBagId,
                   productId := item.productId }]
          let items2 := updateItem items1 itemId
            (fun i => { i with quantity := i.quantity - q })
          let items3 :=
            if item.quantity - q ≤ 0 then removeItemById items2 itemId
            else items2
          let mv : MovementRow :=
            { itemName := item.name, itemType := item.itype,
              itemSize := item.size, quantity := q,
              movementType := "transfer", fromBag := some fromBag.name,
              toBag := some toBag.name,
              notes := "Multi-transfer: " ++ toString q ++ " units",
              patientName := none, expiry := none, timestamp := s.now }
          ({ s with
              items := items3, movements := s.movements ++ [mv],
              nextItemId :=
                if existing.isNone then s.nextItemId + 1 else s.nextItemId },
           succs ++ [⟨item.name, q, fromBag.name⟩])

/-- `handle_multi_transfer` (`routes.py` lines 756–903): batched transfer of
several items to one destination bag.  The form parser keeps only requests
with a positive quantity; one `multi_transfer` undo action covers the whole
batch, and nothing is committed when no item went through. -/
def handle_multi_transfer (s : DB) (uid : Nat) (toBagId : Nat)
    (reqs : List (Nat × Int)) : DB × Bool :=
  match findBagById s.bags toBagId with
  | none => (s, false)
  | some toBag =>
    let ts := reqs.filter (fun r => decide (0 < r.2))
    if ts.isEmpty then (s, false)
    else
      let (s1, succs) := ts.foldl (multiTransferStep toBagId) (s, [])
      if succs.isEmpty then (s, false)
      else
        let ua : UndoActionRow :=
          { id := s.nextUndoId, actionType := "multi_transfer",
            data := .multiTransfer toBagId toBag.name succs succs.length,
            description := "Multi-transfer of " ++ toString succs.length ++
              " items to " ++ toBag.name,
            userId := uid, timestamp := s.now, isUsed := false }
        ({ s1 with
            undoActions := ua :: s1.undoActions,
            nextUndoId := s.nextUndoId + 1, now := s.now + 1 }, true)

/-- One row of the form loop of `handle_manual_addition` (`routes.py` lines
347–491): look up or create the `Product`, merge into an exact-key `Item` or
create one, log an `addition` movement whose quantity is the item's
**post-merge** quantity, and record an `add_item` undo action.  The
`product_created` flag is computed *after* the product has been added and
flushed (`routes.py` line 471), so the name always resolves and the recorded
flag is always `false`. -/
def handle_manual_addition (s : DB) (uid : Nat) (bagId : Nat)
    (genericName : Option String) (name ty : String)
    (brand size : Option String) (qty : Int) (expiry : Option Nat)
    (minStock : Int) : DB × Bool :=
  match findBagById s.bags bagId with
  | none => (s, false)
  | some bag =>
    if name = "" then (s, false)
    else if ty = "" then (s, false)
    else
      let (products1, product, nextProductId1) :=
        match findProductByName s.products name with
        | some p => (s.products, p, s.nextProductId)
        | none =>
          let p : ProductRow :=
            { id := s.nextProductId, name := name, ptype := ty,
              minimumStock := minStock }
          (s.products ++ [p], p, s.nextProductId + 1)
      let existing := findItemByKey s.items name ty brand size expiry bag.id
      let (items1, item, nextItemId1) :=
        match existing with
        | some e =>
          ((updateItem s.items e.id
              (fun i => { i with quantity := i.quantity + qty })),
           { e with quantity := e.quantity + qty }, s.nextItemId)
        | none =>
          let it : ItemRow :=
            { id := s.nextItemId, name := name, itype := ty, brand := brand,
              size := size, genericName := genericName, quantity := qty,
              expiry := expiry, bagId := bag.id,
              productId := some product.id }
          (s.items ++ [it], it, s.nextItemId + 1)
      let mv : MovementRow :=
        { itemName := item.name, itemType := item.itype,
          itemSize := item.size, quantity := item.quantity,
          movementType := "addition", fromBag := none, toBag := some bag.name,
          notes := "Added manually", patientName := none,
          expiry := none, timestamp := s.now }
      let productCreated := (findProductByName products1 name).isNone
      let ua : UndoActionRow :=
        { id := s.nextUndoId, actionType := "add_item",
          data := .addItem item.name item.itype item.brand item.size
            item.quantity item.expiry bag.id bag.name (some product.id)
            productCreated,
          description := "Added " ++ toString item.quantity ++ " " ++
            item.name ++ " to " ++ bag.name,
          userId := uid, timestamp := s.now, isUsed := false }
      ({ s with
          products := products1, items := items1,
          movements := s.movements ++ [mv],
          undoActions := ua :: s.undoActions,
          nextProductId := nextProductId1, nextItemId := nextItemId1,
          nextUndoId := s.nextUndoId + 1, now := s.now + 1 }, true)

/-- The `delete` branch of `handle_bag_management` (`routes.py` lines
1134–1242): refuse to delete the bag named `Cabinet`; otherwise reassign the
bag's positive-quantity items to the Cabinet (logging one auto-transfer
movement each), drop its `BagMinimum` rows, record a `PermanentDeletion` and
a `delete_bag` undo action, and delete the bag row.  There is no
zero-stock precondition, and items with non-positive quantity are left
untouched. -/
def handle_bag_delete (s : DB) (uid : Nat) (bagId : Nat) : DB × Bool :=
  match findBagById s.bags bagId with
  | none => (s, false)
  | some bag =>
    if bag.name = "Cabinet" then (s, false)
    else
      match findBagByName s.bags "Cabinet" with
      | none => (s, false)
      | some cabinet =>
        let bagItems := s.items.filter
          (fun i => decide (i.bagId = bag.id) && decide (0 < i.quantity))
        let transferredIds := bagItems.map (·.id)
        let items' := s.items.map (fun i =>
          if i.bagId = bag.id ∧ 0 < i.quantity then
            { i with bagId := cabinet.id }
          else i)
        let mvs := bagItems.map (fun i =>
          { itemName := i.name, itemType := i.itype, itemSize := i.size,
            quantity := i.quantity, movementType := "transfer",
            fromBag := some bag.name, toBag := some cabinet.name,
            notes := "Auto-transferred due to bag deletion",
            patientName := none, expiry := none,
            timestamp := s.now : MovementRow })
        let mins := s.bagMinimums.filter (fun m => decide (m.bagId = bag.id))
        let ua : UndoActionRow :=
          { id := s.nextUndoId, actionType := "delete_bag",
            data := .deleteBag bag.id bag.name bag.description bag.location
              transferredIds mins,
            description := "Deleted bag " ++ bag.name,
            userId := uid, timestamp := s.now, isUsed := false }
        ({ s with
            bags := s.bags.filter (fun b => !decide (b.id = bag.id)),
            items := items',
            movements := s.movements ++ mvs,
            bagMinimums :=
              s.bagMinimums.filter (fun m => !decide (m.bagId = bag.id)),
            permDeletions := s.permDeletions ++
              [{ entityType := "bag", entityName := bag.name, userId := uid,
                 isRestored := false }],
            undoActions := ua :: s.undoActions,
            nextUndoId := s.nextUndoId + 1, now := s.now + 1 }, true)

/-! ## The undo engine: `undo_last_action` (`routes.py` lines 1551–1803) -/

inductive UndoOutcome where
  /-- one of the `success_message` paths, followed by `is_used = True`. -/
  | ok
  /-- `'No actions to undo'` — the `NothingToUndo` condition. -/
  | noActions
  /-- any other `{'success': False, ...}` response (`Unknown action type`,
  `Item not found for usage reversal`, `Added item not found for reversal`,
  or an exception rolled back); the action is left unconsumed. -/
  | err
deriving DecidableEq

/-- `PermanentDeletion.query.filter_by(..., is_restored=False).first()`
followed by `is_restored = True`: mark only the first matching row. -/
def markFirstPerm : List PermanentDeletionRow → String → Nat →
    List PermanentDeletionRow
  | [], _, _ => []
  | p :: ps, nm, uid =>
    if p.entityType = "bag" ∧ p.entityName = nm ∧ p.userId = uid ∧
        p.isRestored = false then
      { p with isRestored := true } :: ps
    else p :: markFirstPerm ps nm uid

/-- The item filter of the `inventory_audit` undo branch (`routes.py` lines
1746–1753): name, type, exact size (`IS NULL` when the recorded size is
empty), quantity ≥ 0. -/
def auditItemMatch (c : AuditChange) (i : ItemRow) : Bool :=
  decide (i.name = c.itemName) && decide (i.itype = c.itemType) &&
    (match c.itemSize with
     | some sz => decide (i.size = some sz)
     | none => decide (i.size = none)) &&
    decide (0 ≤ i.quantity)

/-- `items_to_update[0].quantity += quantity_to_add`: add to the first
matching row. -/
def addToFirst (p : ItemRow → Bool) (amt : Int) :
    List ItemRow → List ItemRow
  | [] => []
  | i :: is' =>
    if p i then { i with quantity := i.quantity + amt } :: is'
    else i :: addToFirst p amt is'

/-- The clamping reduction loop shared by the forward audit (`routes.py`
lines 2163–2175) and the audit undo (lines 1762–1772): walk the matching
rows in order, zeroing each until the remainder is used up. -/
def reduceAcross (p : ItemRow → Bool) : List ItemRow → Int → List ItemRow
  | [], _ => []
  | i :: is', rem =>
    if rem ≤ 0 then i :: is'
    else if p i then
      if i.quantity ≤ rem then
        { i with quantity := 0 } :: reduceAcross p is' (rem - i.quantity)
      else { i with quantity := i.quantity - rem } :: reduceAcross p is' 0
    else i :: reduceAcross p is' rem

/-- Reverse one audit change (`routes.py` lines 1739–1772): a negative
recorded delta is added back to the first matching row; a positive one is
reduced with clamping across the matching rows. -/
def applyAuditReverse (items : List ItemRow) (c : AuditChange) :
    List ItemRow :=
  if c.quantityChange < 0 then
    addToFirst (auditItemMatch c) (-c.quantityChange) items
  else reduceAcross (auditItemMatch c) items c.quantityChange

/-- One `new_count_*` row of the audit form as parsed by
`handle_inventory_audit` (`routes.py` lines 2118–2133): the identifying
fields and the current/new counts.  An empty form size stands for `NULL`
and is modelled as `none`. -/
structure AuditEntry where
  itemName : String
  itemType : String
  itemSize : Option String
  currentQty : Int
  newCount : Int
deriving DecidableEq

/-- The item filter of the forward audit quantity update (`routes.py` lines
2153–2161): name, type, exact size (`IS NULL` when the form size is empty)
and strictly positive quantity — unlike the undo branch, which accepts
zero-quantity rows. -/
def auditForwardMatch (nm ty : String) (sz : Option String)
    (i : ItemRow) : Bool :=
  decide (i.name = nm) && decide (i.itype = ty) &&
    (match sz with
     | some z => decide (i.size = some z)
     | none => decide (i.size = none)) &&
    decide (0 < i.quantity)

/-- The per-entry quantity update of `handle_inventory_audit` (`routes.py`
lines 2152–2180): a negative delta is drained across the matching rows with
clamping; a positive delta is added to the first matching row, and no row is
created when none matches. -/
def auditEntryApply (items : List ItemRow) (e : AuditEntry) :
    List ItemRow :=
  let delta := e.newCount - e.currentQty
  if delta < 0 then
    reduceAcross (auditForwardMatch e.itemName e.itemType e.itemSize) items
      (-delta)
  else
    addToFirst (auditForwardMatch e.itemName e.itemType e.itemSize) delta
      items

/-- The `BULK_WEEKLY_CHECK_*` movement logged for one changed audit entry
(`routes.py` lines 2137–2149). -/
def auditEntryMovement (now : Nat) (e : AuditEntry) : MovementRow :=
  let delta := e.newCount - e.currentQty
  { itemName := e.itemName, itemType := e.itemType, itemSize := e.itemSize,
    quantity := |delta|,
    movementType := "BULK_WEEKLY_CHECK_" ++
      (if delta < 0 then "USAGE" else "ADJUSTMENT"),
    fromBag := none, toBag := none,
    notes := "Weekly check: " ++ toString e.currentQty ++ " -> " ++
      toString e.newCount,
    patientName := none, expiry := none, timestamp := now }

/-- The `changes` entry of the `inventory_audit` undo payload for one
changed audit row (`routes.py` lines 2205–2214): the signed delta is
reconstructed from the logged movement (negated when `USAGE` occurs in its
movement type). -/
def auditEntryChange (now : Nat) (e : AuditEntry) : AuditChange :=
  let m := auditEntryMovement now e
  { itemName := m.itemName, itemType := m.itemType, itemSize := m.itemSize,
    quantityChange :=
      if "USAGE".toList <:+: m.movementType.toList then -m.quantity
      else m.quantity,
    movementType := m.movementType, notes := m.notes }

/-- `handle_inventory_audit` (`routes.py` lines 2107–2233): every form row
whose new count differs from the current quantity yields one
`BULK_WEEKLY_CHECK_*` movement and a quantity update of the matching rows
(clamped on reduction); an `InventoryAudit` record is always appended
(its autoincrement id modelled by the table length), and one
`inventory_audit` undo action covering the whole batch is recorded exactly
when at least one row changed.  The route always reports success. -/
def handle_inventory_audit (s : DB) (uid : Nat) (bagId : Option Nat)
    (entries : List AuditEntry) : DB × Bool :=
  let changed := entries.filter
    (fun e => !decide (e.newCount - e.currentQty = 0))
  let items' := changed.foldl auditEntryApply s.items
  let mvs := changed.map (auditEntryMovement s.now)
  let auditId := s.audits.length + 1
  let audit : InventoryAuditRow :=
    { id := auditId, userId := uid, bagId := bagId,
      itemsChecked := changed.length,
      notes := "Inventory audit completed with " ++
        toString changed.length ++ " items updated" }
  let undos :=
    if changed.isEmpty then s.undoActions
    else
      { id := s.nextUndoId, actionType := "inventory_audit",
        data := .inventoryAudit auditId (changed.map (auditEntryChange s.now)),
        description := "Inventory audit with " ++ toString changed.length ++
          " item changes",
        userId := uid, timestamp := s.now, isUsed := false } :: s.undoActions
  ({ s with
      items := items', movements := s.movements ++ mvs,
      audits := s.audits ++ [audit], undoActions := undos,
      nextUndoId :=
        if changed.isEmpty then s.nextUndoId else s.nextUndoId + 1,
      now := s.now + 1 }, true)

/-- The movement filter of the `transfer` undo branch (`routes.py` lines
1659–1667). -/
def transferMovementMatch (itemName fromBagName toBagName : String)
    (q : Int) (m : MovementRow) : Bool :=
  decide (m.itemName = itemName) && decide (m.fromBag = some fromBagName) &&
    decide (m.toBag = some toBagName) && decide (m.quantity = q) &&
    decide (m.movementType = "transfer")

/-- The movement filter of the `usage` undo branch (`routes.py` lines
1680–1688). -/
def usageMovementMatch (itemName bagName : String) (q : Int)
    (patient : String) (m : MovementRow) : Bool :=
  decide (m.itemName = itemName) && decide (m.fromBag = some bagName) &&
    decide (m.quantity = q) && decide (m.movementType = "usage") &&
    decide (m.patientName = some patient)

/-- The movement filter of the `add_item` undo branch (`routes.py` lines
1711–1719). -/
def additionMovementMatch (itemName bagName : String) (q : Int)
    (m : MovementRow) : Bool :=
  decide (m.itemName = itemName) && decide (m.toBag = some bagName) &&
    decide (m.quantity = q) && decide (m.movementType = "addition") &&
    decide (m.notes = "Added manually")

/-- The item selector of the `add_item` undo branch (`routes.py` lines
1697–1704): descriptive key, bag, **and current quantity equal to the
recorded (post-merge) quantity**. -/
def addedItemMatch (itemName itemType : String) (brand size : Option String)
    (bagId : Nat) (q : Int) (i : ItemRow) : Bool :=
  decide (i.name = itemName) && decide (i.itype = itemType) &&
    decide (i.brand = brand) && decide (i.size = size) &&
    decide (i.bagId = bagId) && decide (i.quantity = q)

/-- `undo_last_action` (`routes.py` lines 1551–1803): fetch the newest
unconsumed `UndoAction` for the user, dispatch on its `action_type`
(`delete_bag`, `transfer`, `usage`, `add_item`, `inventory_audit`; anything
else — in particular `multi_transfer` — answers `Unknown action type`), apply
the inverse, and mark the action consumed on success. -/
def undo_last_action (s : DB) (uid : Nat) : DB × UndoOutcome :=
  match newestUnconsumed s uid with
  | none => (s, .noActions)
  | some la =>
    if la.actionType = "delete_bag" then
      match la.data with
      | .deleteBag _bagId bagName bagDesc bagLoc transferredIds mins =>
        let newBag : BagRow :=
          { id := s.nextBagId, name := bagName, description := bagDesc,
            location := bagLoc }
        let items' := transferredIds.foldl
          (fun its iid =>
            updateItem its iid (fun i => { i with bagId := newBag.id }))
          s.items
        let minims' := s.bagMinimums ++ mins.map (fun m =>
          { bagId := newBag.id, productId := m.productId,
            minimumQuantity := m.minimumQuantity : BagMinimumRow })
        let movs' := s.movements.filter (fun m =>
          !(decide (m.fromBag = some bagName) &&
            decide (m.toBag = some "Cabinet") &&
            decide (m.notes = "Auto-transferred due to bag deletion")))
        ({ s with
            bags := s.bags ++ [newBag], items := items',
            bagMinimums := minims',
            permDeletions := markFirstPerm s.permDeletions bagName uid,
            movements := movs',
            undoActions := markUsed s.undoActions la.id,
            nextBagId := s.nextBagId + 1, now := s.now + 1 }, .ok)
      | _ => (s, .err)
    else if la.actionType = "transfer" then
      match la.data with
      | .transferData itemId fromBagId toBagId q itemName itemType brand
          size expiry productId existingItemId newItemCreated
          sourceItemDeleted _origQty =>
        match findBagById s.bags fromBagId, findBagById s.bags toBagId with
        | some fromBag, some toBag =>
          let items1 :=
            if newItemCreated then
              match s.items.find? (fun i =>
                  decide (i.name = itemName) && decide (i.bagId = toBagId))
                with
              | some d => removeItemById s.items d.id
              | none => s.items
            else
              match existingItemId with
              | some eid =>
                match findItemById s.items eid with
                | some d =>
                  if d.quantity - q ≤ 0 then removeItemById s.items eid
                  else updateItem s.items eid
                    (fun i => { i with quantity := i.quantity - q })
                | none => s.items
              | none => s.items
          let (items2, nextItemId1) :=
            if sourceItemDeleted then
              (items1 ++
                [{ id := s.nextItemId, name := itemName, itype := itemType,
                   brand := brand, size := size, genericName := none,
                   quantity := q, expiry := expiry, bagId := fromBagId,
                   productId := productId }], s.nextItemId + 1)
            else
              (updateItem items1 itemId
                (fun i => { i with quantity := i.quantity + q }),
               s.nextItemId)
          let movs' := s.movements.filter (fun m =>
            !transferMovementMatch itemName fromBag.name toBag.name q m)
          ({ s with
              items := items2, movements := movs',
              undoActions := markUsed s.undoActions la.id,
              nextItemId := nextItemId1, now := s.now + 1 }, .ok)
        | _, _ => (s, .err)
      | _ => (s, .err)
    else if la.actionType = "usage" then
      match la.data with
      | .usageData itemId q itemName bagName patient _notes _origQty =>
        match findItemById s.items itemId with
        | none => (s, .err)
        | some _item =>
          let items' := updateItem s.items itemId
            (fun i => { i with quantity := i.quantity + q })
          let movs' := s.movements.filter (fun m =>
            !usageMovementMatch itemName bagName q patient m)
          ({ s with
              items := items', movements := movs',
              undoActions := markUsed s.undoActions la.id,
              now := s.now + 1 }, .ok)
      | _ => (s, .err)
    else if la.actionType = "add_item" then
      match la.data with
      | .addItem itemName itemType brand size q _expiry bagId bagName
          productId productCreated =>
        match s.items.find?
            (addedItemMatch itemName itemType brand size bagId q) with
        | none => (s, .err)
        | some item =>
          let items' := removeItemById s.items item.id
          let movs' := s.movements.filter (fun m =>
            !additionMovementMatch itemName bagName q m)
          let products' :=
            if productCreated then
              match productId with
              | some pid =>
                if (items'.filter
                    (fun i => decide (i.productId = some pid))).length = 0
                then s.products.filter (fun p => !decide (p.id = pid))
                else s.products
              | none => s.products
            else s.products
          ({ s with
              items := items', movements := movs', products := products',
              undoActions := markUsed s.undoActions la.id,
              now := s.now + 1 }, .ok)
      | _ => (s, .err)
    else if la.actionType = "inventory_audit" then
      match la.data with
      | .inventoryAudit auditId changes =>
        let items' := changes.foldl applyAuditReverse s.items
        let movs' := s.movements.filter (fun m =>
          !(m.movementType.startsWith "BULK_WEEKLY_CHECK_" &&
            decide (la.timestamp ≤ m.timestamp)))
        let audits' := s.audits.map (fun a =>
          if a.id = auditId then { a with notes := a.notes ++ " - REVERSED" }
          else a)
        ({ s with
            items := items', movements := movs', audits := audits',
            undoActions := markUsed s.undoActions la.id,
            now := s.now + 1 }, .ok)
      | _ => (s, .err)
    else (s, .err)

/-! ## Consolidation: `consolidate_items.py` -/

/-- The duplicate key of `consolidate_items.py`: name, type, brand, size,
expiry date and bag. -/
def dupKeyMatch (name ty : String) (brand size : Option String)
    (expiry : Option Nat) (bagId : Nat) (i : ItemRow) : Bool :=
  decide (i.name = name) && decide (i.itype = ty) &&
    decide (i.brand = brand) && decide (i.size = size) &&
    decide (i.expiry = expiry) && decide (i.bagId = bagId)

/-- `order_by(Item.id).all()` followed by `duplicates[0]`: the row with the
lowest primary key (the fold keeps the earlier row on a tie, which cannot
occur among distinct primary keys). -/
def minIdItem : List ItemRow → Option ItemRow
  | [] => none
  | i :: is' =>
    match minIdItem is' with
    | none => some i
    | some m => some (if m.id < i.id then m else i)

/-- `consolidate_duplicate_items` (`consolidate_items.py` lines 41–84)
restricted to one duplicate group, identified by its key (the script loops
this body over every key with more than one row): keep the lowest-id row,
give it the summed quantity, delete the others, and append one
`consolidation` movement for the group.  Groups with fewer than two rows are
skipped. -/
def consolidate_duplicate_items (s : DB) (name ty : String)
    (brand size : Option String) (expiry : Option Nat) (bagId : Nat) : DB :=
  let dups := s.items.filter (dupKeyMatch name ty brand size expiry bagId)
  if dups.length ≤ 1 then s
  else
    match minIdItem dups with
    | none => s
    | some primary =>
      match findBagById s.bags primary.bagId with
      | none => s
      | some bag =>
        let total := (dups.map (·.quantity)).sum
        let items' := s.items.filterMap (fun i =>
          if dupKeyMatch name ty brand size expiry bagId i then
            if i.id = primary.id then
              some { i with quantity := total }
            else none
          else some i)
        let mv : MovementRow :=
          { itemName := primary.name, itemType := primary.itype,
            itemSize := primary.size, quantity := total,
            movementType := "consolidation", fromBag := none,
            toBag := some bag.name,
            notes := "Consolidated " ++ toString dups.length ++
              " duplicate entries into one record",
            patientName := none, expiry := none, timestamp := s.now }
        { s with
            items := items', movements := s.movements ++ [mv],
            now := s.now + 1 }

/-! ## Derived totals -/

/-- The total piece count a bag holds (`quantity` summed over its rows). -/
def bagTotal (items : List ItemRow) (bid : Nat) : Int :=
  (items.map (fun i => if i.bagId = bid then i.quantity else 0)).sum

/-- Total of the records matching a full descriptive key in one bag. -/
def keyTotal (items : List ItemRow) (name ty : String)
    (brand size : Option String) (expiry : Option Nat) (bagId : Nat) : Int :=
  (items.map (fun i =>
    if dupKeyMatch name ty brand size expiry bagId i then i.quantity
    else 0)).sum

/-- Well-formed table: distinct primary keys, all below the autoincrement
counter. -/
def ItemsWF (items : List ItemRow) (nextId : Nat) : Prop :=
  (items.map (·.id)).Nodup ∧ ∀ i ∈ items, i.id < nextId

/-! ## Lemmas about the unit converter -/

theorem total_pieces_nonneg {b l : Int} (u : Option Int) (hb : 0 ≤ b)
    (hl : 0 ≤ l) (hu : UOk u) : 0 ≤ total_pieces b l u := by
  cases u with
  | none => simpa [total_pieces] using hl
  | some up =>
    by_cases h : up = 0
    · simp [total_pieces, h, hl]
    · simp only [total_pieces, if_pos h]
      exact add_nonneg (mul_nonneg hb (hu up rfl)) hl

theorem remove_stock_ok_nonneg {b l n b' l' : Int} {u : Option Int}
    (hb : 0 ≤ b) (hl : 0 ≤ l) (hu : UOk u)
    (h : remove_stock b l u n = .ok (b', l')) : 0 ≤ b' ∧ 0 ≤ l' := by
  by_cases htot : total_pieces b l u < n
  · rw [remove_stock, if_pos htot] at h
    exact absurd h (by simp)
  · by_cases hnl : n ≤ l
    · cases u with
      | none =>
        simp only [remove_stock, if_neg htot, hnl, if_true,
          Except.ok.injEq, Prod.mk.injEq] at h
        obtain ⟨rfl, rfl⟩ := h
        exact ⟨hb, sub_nonneg.mpr hnl⟩
      | some up =>
        simp only [remove_stock, if_neg htot, hnl, if_true, lt_irrefl,
          false_and, if_false, Except.ok.injEq, Prod.mk.injEq] at h
        obtain ⟨rfl, rfl⟩ := h
        exact ⟨hb, sub_nonneg.mpr hnl⟩
    · have hrem : (0 : Int) < n - l := by omega
      cases u with
      | none =>
        simp only [remove_stock, if_neg htot, hnl, if_false,
          Except.ok.injEq, Prod.mk.injEq] at h
        obtain ⟨rfl, rfl⟩ := h
        exact ⟨hb, le_refl 0⟩
      | some up =>
        by_cases hup : up = 0
        · subst hup
          simp only [remove_stock, if_neg htot, hnl, if_false,
            ne_eq, not_true_eq_false, and_false, if_false, Except.ok.injEq,
            Prod.mk.injEq] at h
          obtain ⟨rfl, rfl⟩ := h
          exact ⟨hb, le_refl 0⟩
        · have hup0 : 0 ≤ up := hu up rfl
          have huppos : 0 < up := lt_of_le_of_ne hup0 (Ne.symm hup)
          simp only [remove_stock, if_neg htot, hnl, if_false, hrem,
            ne_eq, hup, not_false_eq_true, and_true, if_true] at h
          set k := (n - l + up - 1).fdiv up with hk
          by_cases hbk : b < k
          · rw [if_pos hbk] at h
            exact absurd h (by simp)
          · rw [if_neg hbk] at h
            simp only [Except.ok.injEq, Prod.mk.injEq] at h
            obtain ⟨rfl, rfl⟩ := h
            refine ⟨by omega, ?_⟩
            -- k * up ≥ n - l because k = ⌈(n - l) / up⌉
            have hke : k = (n - l + up - 1) / up :=
              Int.fdiv_eq_ediv _ (le_of_lt huppos)
            have hmod := Int.ediv_add_emod (n - l + up - 1) up
            have hlt := Int.emod_lt_of_pos (n - l + up - 1) huppos
            have : up * ((n - l + up - 1) / up) ≥ n - l := by omega
            calc (0 : Int) ≤ up * ((n - l + up - 1) / up) - (n - l) := by
                  omega
              _ = k * up - (n - l) := by rw [hke]; ring_nf

/-- C2: for a record holding `b` whole boxes and `l` loose pieces with
packaging ratio `up`, removing `n ≤ b*up + l` pieces first drains the loose
pieces and then breaks `⌈(n-l)/up⌉` whole boxes, leaving the remainder of the
broken boxes loose; removing more than the total fails with the
`InsufficientStock` error. -/
theorem C2_remove_stock (b l up n : Int) (hb : 0 ≤ b) (hl : 0 ≤ l)
    (hup : 0 < up) (hn : 0 ≤ n) :
    (n ≤ b * up + l →
      remove_stock b l (some up) n =
        if n ≤ l then Except.ok (b, l - n)
        else Except.ok (b - (n - l + up - 1).fdiv up,
          (n - l + up - 1).fdiv up * up - (n - l))) ∧
    (b * up + l < n →
      remove_stock b l (some up) n =
        Except.error "Not enough stock available") := by
  have hup' : up ≠ 0 := ne_of_gt hup
  have htot : total_pieces b l (some up) = b * up + l := by
    simp [total_pieces, hup']
  constructor
  · intro hle
    have hnlt : ¬ total_pieces b l (some up) < n := by omega
    by_cases hnl : n ≤ l
    · simp [remove_stock, hnlt, hnl]
    · have hrem : (0 : Int) < n - l := by omega
      have hk : (n - l + up - 1).fdiv up ≤ b := by
        rw [Int.fdiv_eq_ediv _ (le_of_lt hup)]
        by_contra hcon
        push_neg at hcon
        have h1 : b + 1 ≤ (n - l + up - 1) / up := hcon
        have h2 : (b + 1) * up ≤ n - l + up - 1 :=
          (Int.le_ediv_iff_mul_le hup).mp h1
        nlinarith
      simp only [remove_stock, if_neg hnlt, hnl, if_false, hrem, ne_eq,
        hup', not_false_eq_true, and_true, if_true, if_neg (not_lt.mpr hk)]
  · intro hgt
    have : total_pieces b l (some up) < n := by omega
    simp [remove_stock, this]

/-- Witness for C2 at the concrete scenario of §8 of the spec:
`(boxes=2, loose=3, units-per-box=100)`; removing 150 leaves `(0, 53)`,
removing 201 leaves `(0, 2)`, removing 204 fails. -/
theorem C2_remove_stock_witness :
    remove_stock 2 3 (some 100) 150 = Except.ok (0, 53) ∧
    remove_stock 2 3 (some 100) 201 = Except.ok (0, 2) ∧
    remove_stock 2 3 (some 100) 204 =
      Except.error "Not enough stock available" := by
  refine ⟨?_, ?_, ?_⟩
  · rw [(C2_remove_stock 2 3 100 150 (by norm_num) (by norm_num) (by norm_num)
      (by norm_num)).1 (by norm_num), if_neg (by norm_num : ¬ (150:Int) ≤ 3)]
    exact congrArg Except.ok (by decide)
  · rw [(C2_remove_stock 2 3 100 201 (by norm_num) (by norm_num) (by norm_num)
      (by norm_num)).1 (by norm_num), if_neg (by norm_num : ¬ (201:Int) ≤ 3)]
    exact congrArg Except.ok (by decide)
  · exact (C2_remove_stock 2 3 100 204 (by norm_num) (by norm_num)
      (by norm_num) (by norm_num)).2 (by norm_num)

/-! ## C3: non-negativity of a single record under the mutating operations -/

theorem applyOp_inv {u : Option Int} {r : Rec1} {op : StockOp}
    (hu : UOk u) (hop : op.wf) (hr : r.Inv) : (applyOp u r op).Inv := by
  obtain ⟨hb, hl, hq⟩ := hr
  cases op with
  | addStock b p =>
    obtain ⟨hbp, hpp⟩ := hop
    exact ⟨by simp only [applyOp]; omega, by simp only [applyOp]; omega,
      by simp only [applyOp];
         exact total_pieces_nonneg u (by omega) (by omega) hu⟩
  | removeStockOp n =>
    simp only [applyOp]
    cases hres : remove_stock r.boxes r.loose u n with
    | ok bl =>
      obtain ⟨b', l'⟩ := bl
      obtain ⟨hb', hl'⟩ := remove_stock_ok_nonneg hb hl hu hres
      exact ⟨hb', hl', total_pieces_nonneg u hb' hl' hu⟩
    | error e => exact ⟨hb, hl, hq⟩
  | removeBoxesOp k =>
    simp only [applyOp]
    by_cases hk : k ≤ r.boxes
    · rw [if_pos hk]
      refine ⟨?_, hl, total_pieces_nonneg u (by omega) hl hu⟩
      show 0 ≤ r.boxes - k
      omega
    · rw [if_neg hk]; exact ⟨hb, hl, hq⟩
  | usage q =>
    simp only [applyOp]
    split
    · exact ⟨hb, hl, hq⟩
    · split
      · exact ⟨hb, hl, hq⟩
      · refine ⟨hb, hl, ?_⟩; simp only; omega
  | wastage q =>
    simp only [applyOp]
    split
    · exact ⟨hb, hl, hq⟩
    · split
      · exact ⟨hb, hl, hq⟩
      · refine ⟨hb, hl, ?_⟩; simp only; omega
  | transferOut q =>
    simp only [applyOp]
    split
    · exact ⟨hb, hl, hq⟩
    · split
      · exact ⟨hb, hl, hq⟩
      · refine ⟨hb, hl, ?_⟩; simp only; omega
  | auditAdjust delta =>
    simp only [applyOp]
    split
    · exact ⟨hb, hl, hq⟩
    · split
      · split
        · exact ⟨hb, hl, le_refl 0⟩
        · refine ⟨hb, hl, ?_⟩; simp only; omega
      · refine ⟨hb, hl, ?_⟩; simp only; omega
  | undoUsage q =>
    have hq0 : 0 ≤ q := hop
    refine ⟨hb, hl, ?_⟩
    show 0 ≤ r.qty + q
    omega

/-- C3 (amended): over every sequence of well-formed operations the record's
stored quantities stay non-negative, and the guarded decrements
(`remove_stock`, usage, wastage, transfer) fail unchanged when the amount
exceeds the current total — but the bulk-audit adjustment is *not* among
them: a negative audit delta larger than the current quantity silently
clamps the quantity to zero instead of failing (see the counterexample). -/
theorem C3_record_nonneg (u : Option Int) (hu : UOk u) (ops : List StockOp)
    (hwf : ∀ op ∈ ops, op.wf) (r : Rec1) (hr : r.Inv) :
    (ops.foldl (applyOp u) r).Inv ∧
    (∀ q, r.qty < q → applyOp u r (.usage q) = r) ∧
    (∀ q, r.qty < q → applyOp u r (.wastage q) = r) ∧
    (∀ q, r.qty < q → applyOp u r (.transferOut q) = r) ∧
    (∀ n, total_pieces r.boxes r.loose u < n →
      applyOp u r (.removeStockOp n) = r) := by
  refine ⟨?_, ?_, ?_, ?_, ?_⟩
  · induction ops generalizing r with
    | nil => exact hr
    | cons op rest ih =>
      exact ih (fun o ho => hwf o (List.mem_cons_of_mem op ho))
        (applyOp u r op)
        (applyOp_inv hu (hwf op (List.mem_cons_self op rest)) hr)
  · intro q hq
    have h0 : ¬ q ≤ 0 := by have := hr.2.2; omega
    simp only [applyOp, if_neg h0, if_pos hq]
  · intro q hq
    have h0 : ¬ q ≤ 0 := by have := hr.2.2; omega
    simp only [applyOp, if_neg h0, if_pos hq]
  · intro q hq
    have h0 : ¬ q ≤ 0 := by have := hr.2.2; omega
    simp only [applyOp, if_neg h0, if_pos hq]
  · intro n hn
    simp [applyOp, remove_stock, hn]

/-- Witness for C3 on a concrete run: starting from `(1 box, 2 loose, qty 7)`
with 5 units per box, a usage of 4, a failing over-usage of 100 and an
addition of one box keep every quantity non-negative, and an over-usage on a
record of quantity 3 leaves it unchanged. -/
theorem C3_record_nonneg_witness :
    ((([.usage 4, .usage 100, .addStock 1 0] : List StockOp).foldl
        (applyOp (some 5)) ⟨1, 2, 7⟩).Inv) ∧
    applyOp (some 5) ⟨1, 2, 3⟩ (.usage 100) = ⟨1, 2, 3⟩ := by
  have h := C3_record_nonneg (some 5) (by intro x hx; simp at hx; omega)
    [.usage 4, .usage 100, .addStock 1 0]
    (by intro op hop; fin_cases hop <;> simp [StockOp.wf])
    ⟨1, 2, 7⟩ ⟨by norm_num, by norm_num, by norm_num⟩
  have h2 := C3_record_nonneg (some 5) (by intro x hx; simp at hx; omega)
    [] (by simp) ⟨1, 2, 3⟩ ⟨by norm_num, by norm_num, by norm_num⟩
  exact ⟨h.1, h2.2.1 100 (by norm_num)⟩

/-- C3 counterexample: the claim includes the bulk-audit adjustment among
the decrements that must "fail and leave the record unchanged" when the
amount exceeds the total.  On a record with quantity 5, an audit decrement
of 10 neither fails nor leaves the record unchanged: it clamps the quantity
to 0 (`routes.py` lines 2163–2175). -/
theorem C3_counterexample :
    applyOp none ⟨0, 5, 5⟩ (.auditAdjust (-10)) = ⟨0, 5, 0⟩ ∧
    applyOp none ⟨0, 5, 5⟩ (.auditAdjust (-10)) ≠ ⟨0, 5, 5⟩ := by
  decide

/-! ## List-level lemmas about the table operations -/

theorem updateItem_map_id {l : List ItemRow} {iid : Nat} {f : ItemRow → ItemRow}
    (hf : ∀ i, (f i).id = i.id) :
    (updateItem l iid f).map (·.id) = l.map (·.id) := by
  induction l with
  | nil => rfl
  | cons x xs ih =>
    simp only [updateItem, List.map_cons] at *
    by_cases hx : x.id = iid
    · simp [hx, hf, ih]
    · simp [hx, ih]

theorem updateItem_of_not_mem {l : List ItemRow} {iid : Nat}
    {f : ItemRow → ItemRow} (h : ∀ i ∈ l, i.id ≠ iid) :
    updateItem l iid f = l := by
  induction l with
  | nil => rfl
  | cons x xs ih =>
    simp only [updateItem, List.map_cons]
    rw [if_neg (h x (List.mem_cons_self x xs))]
    have := ih (fun i hi => h i (List.mem_cons_of_mem x hi))
    simpa [updateItem] using this

theorem updateItem_cons (x : ItemRow) (xs : List ItemRow) (iid : Nat)
    (f : ItemRow → ItemRow) :
    updateItem (x :: xs) iid f =
      (if x.id = iid then f x else x) :: updateItem xs iid f := rfl

theorem removeItemById_cons (x : ItemRow) (xs : List ItemRow) (iid : Nat) :
    removeItemById (x :: xs) iid =
      (if x.id = iid then [] else [x]) ++ removeItemById xs iid := by
  simp only [removeItemById, List.filter_cons]
  by_cases hx : x.id = iid <;> simp [hx]

theorem find?_id_of_mem {l : List ItemRow} {it : ItemRow}
    (hnd : (l.map (·.id)).Nodup) (hmem : it ∈ l) :
    l.find? (fun i => decide (i.id = it.id)) = some it := by
  induction l with
  | nil => cases hmem
  | cons x xs ih =>
    rcases List.mem_cons.mp hmem with rfl | hmem'
    · exact List.find?_cons_of_pos _ (by simp)
    · by_cases hx : x.id = it.id
      · have : x = it :=
          List.inj_on_of_nodup_map hnd (List.mem_cons_self x xs)
            (List.mem_cons_of_mem x hmem') hx
        subst this
        exact List.find?_cons_of_pos _ (by simp)
      · rw [List.find?_cons_of_neg _ (by simpa using hx)]
        exact ih (by simpa using (List.nodup_cons.mp
          (by simpa using hnd)).2) hmem'

theorem find?_updateItem {l : List ItemRow} {iid iid' : Nat}
    {f : ItemRow → ItemRow} (hf : ∀ i, (f i).id = i.id) :
    (updateItem l iid' f).find? (fun i => decide (i.id = iid)) =
      (l.find? (fun i => decide (i.id = iid))).map
        (fun i => if i.id = iid' then f i else i) := by
  induction l with
  | nil => rfl
  | cons x xs ih =>
    rw [updateItem_cons]
    by_cases hx : x.id = iid
    · have hhead : ((if x.id = iid' then f x else x).id = iid) := by
        by_cases hx' : x.id = iid'
        · rw [if_pos hx', hf]; exact hx
        · rw [if_neg hx']; exact hx
      rw [List.find?_cons_of_pos _ (by simpa using hhead),
        List.find?_cons_of_pos _ (by simpa using hx)]
      simp
    · have hhead : ¬ ((if x.id = iid' then f x else x).id = iid) := by
        by_cases hx' : x.id = iid'
        · rw [if_pos hx', hf]; exact hx
        · rw [if_neg hx']; exact hx
      rw [List.find?_cons_of_neg _ (by simpa using hhead),
        List.find?_cons_of_neg _ (by simpa using hx)]
      exact ih

theorem bagTotal_nil (bid : Nat) : bagTotal [] bid = 0 := rfl

theorem bagTotal_cons (x : ItemRow) (xs : List ItemRow) (bid : Nat) :
    bagTotal (x :: xs) bid =
      (if x.bagId = bid then x.quantity else 0) + bagTotal xs bid := by
  simp [bagTotal]

theorem bagTotal_append (l₁ l₂ : List ItemRow) (bid : Nat) :
    bagTotal (l₁ ++ l₂) bid = bagTotal l₁ bid + bagTotal l₂ bid := by
  simp [bagTotal]

theorem bagTotal_updateItem {l : List ItemRow} {iid : Nat}
    {f : ItemRow → ItemRow} {δ : Int} {it : ItemRow} (bid : Nat)
    (hf_id : ∀ i, (f i).id = i.id) (hf_bag : ∀ i, (f i).bagId = i.bagId)
    (hf_q : ∀ i, (f i).quantity = i.quantity + δ)
    (hnd : (l.map (·.id)).Nodup)
    (hfind : l.find? (fun i => decide (i.id = iid)) = some it) :
    bagTotal (updateItem l iid f) bid =
      bagTotal l bid + (if it.bagId = bid then δ else 0) := by
  induction l with
  | nil => cases hfind
  | cons x xs ih =>
    rw [updateItem_cons]
    by_cases hx : x.id = iid
    · rw [List.find?_cons_of_pos _ (by simpa using hx)] at hfind
      obtain rfl : x = it := by simpa using hfind
      rw [if_pos hx, bagTotal_cons, bagTotal_cons, hf_bag, hf_q]
      have hxs : updateItem xs iid f = xs := by
        refine updateItem_of_not_mem (fun i hi hieq => ?_)
        have hx_not : x.id ∉ xs.map (·.id) :=
          (List.nodup_cons.mp (by simpa using hnd)).1
        refine hx_not ?_
        rw [hx, ← hieq]
        exact List.mem_map_of_mem _ hi
      rw [hxs]
      by_cases hbag : x.bagId = bid
      · simp only [if_pos hbag]; ring
      · simp only [if_neg hbag]; ring
    · rw [List.find?_cons_of_neg _ (by simpa using hx)] at hfind
      rw [if_neg hx, bagTotal_cons, bagTotal_cons,
        ih (by simpa using (List.nodup_cons.mp (by simpa using hnd)).2)
          hfind]
      ring

theorem removeItemById_of_not_mem {l : List ItemRow} {iid : Nat}
    (h : ∀ i ∈ l, i.id ≠ iid) : removeItemById l iid = l := by
  rw [removeItemById, List.filter_eq_self]
  intro a ha
  simpa using h a ha

theorem bagTotal_removeItemById {l : List ItemRow} {iid : Nat}
    {it : ItemRow} (bid : Nat) (hnd : (l.map (·.id)).Nodup)
    (hfind : l.find? (fun i => decide (i.id = iid)) = some it) :
    bagTotal (removeItemById l iid) bid =
      bagTotal l bid - (if it.bagId = bid then it.quantity else 0) := by
  induction l with
  | nil => cases hfind
  | cons x xs ih =>
    rw [removeItemById_cons]
    by_cases hx : x.id = iid
    · rw [List.find?_cons_of_pos _ (by simpa using hx)] at hfind
      obtain rfl : x = it := by simpa using hfind
      have hxs : removeItemById xs iid = xs := by
        refine removeItemById_of_not_mem (fun i hi hieq => ?_)
        have hx_not : x.id ∉ xs.map (·.id) :=
          (List.nodup_cons.mp (by simpa using hnd)).1
        refine hx_not ?_
        rw [hx, ← hieq]
        exact List.mem_map_of_mem _ hi
      rw [if_pos hx, hxs, List.nil_append, bagTotal_cons]
      ring
    · rw [List.find?_cons_of_neg _ (by simpa using hx)] at hfind
      rw [if_neg hx, List.singleton_append, bagTotal_cons, bagTotal_cons,
        ih (by simpa using (List.nodup_cons.mp (by simpa using hnd)).2)
          hfind]
      ring

/-! ## C6: a successful transfer conserves the source + destination total -/

/-- C6: for every successful transfer of quantity `q` from a source record to
a destination bag — merged into an existing destination record or creating a
new one, with or without deletion of the zeroed source record — the combined
quantity held by the source bag and the destination bag is unchanged. -/
theorem C6_transfer_conserves (s : DB) (uid itemId toBagId : Nat) (q : Int)
    (it : ItemRow) (toBag fromBag : BagRow)
    (hWF : ItemsWF s.items s.nextItemId)
    (hit : findItemById s.items itemId = some it)
    (htb : findBagById s.bags toBagId = some toBag)
    (hfb : findBagById s.bags it.bagId = some fromBag)
    (hq : 0 < q) (hle : q ≤ it.quantity) (hbag : it.bagId ≠ toBagId) :
    (handle_transfer s uid itemId toBagId q).2 = true ∧
    bagTotal (handle_transfer s uid itemId toBagId q).1.items it.bagId +
      bagTotal (handle_transfer s uid itemId toBagId q).1.items toBagId =
    bagTotal s.items it.bagId + bagTotal s.items toBagId := by
  obtain ⟨hnd, hlt⟩ := hWF
  simp only [findItemById] at hit
  have hitid : it.id = itemId := by simpa using List.find?_some hit
  have hitmem : it ∈ s.items := List.mem_of_find?_eq_some hit
  have hfid_add : ∀ i : ItemRow,
      ({ i with quantity := i.quantity + q } : ItemRow).id = i.id :=
    fun i => rfl
  have hfbag_add : ∀ i : ItemRow,
      ({ i with quantity := i.quantity + q } : ItemRow).bagId = i.bagId :=
    fun i => rfl
  have hfq_add : ∀ i : ItemRow,
      ({ i with quantity := i.quantity + q } : ItemRow).quantity =
        i.quantity + q := fun i => rfl
  have hfid_sub : ∀ i : ItemRow,
      ({ i with quantity := i.quantity - q } : ItemRow).id = i.id :=
    fun i => rfl
  have hfbag_sub : ∀ i : ItemRow,
      ({ i with quantity := i.quantity - q } : ItemRow).bagId = i.bagId :=
    fun i => rfl
  have hfq_sub : ∀ i : ItemRow,
      ({ i with quantity := i.quantity - q } : ItemRow).quantity =
        i.quantity + (-q) := fun i => sub_eq_add_neg _ _
  cases hE : findItemByKey s.items it.name it.itype it.brand it.size
      it.expiry toBagId with
  | some e =>
    have he_mem : e ∈ s.items := List.mem_of_find?_eq_some hE
    have he_pred := List.find?_some hE
    have he_bag : e.bagId = toBagId := by
      simp only [decide_eq_true_eq] at he_pred
      exact he_pred.2.2.2.2.2
    have he_ne : e.id ≠ it.id := by
      intro h
      exact hbag ((List.inj_on_of_nodup_map hnd he_mem hitmem h ▸ he_bag :
        it.bagId = toBagId))
    have hfinde : s.items.find? (fun i => decide (i.id = e.id)) = some e :=
      find?_id_of_mem hnd he_mem
    have hnd1 : ((updateItem s.items e.id
        (fun i => { i with quantity := i.quantity + q })).map (·.id)).Nodup := by
      rw [updateItem_map_id hfid_add]; exact hnd
    have hfind1 : (updateItem s.items e.id
        (fun i => { i with quantity := i.quantity + q })).find?
          (fun i => decide (i.id = itemId)) = some it := by
      rw [find?_updateItem hfid_add, hit]
      simp only [Option.map_some']
      rw [if_neg (fun h => he_ne (Eq.symm h))]
    have h1 : ∀ bid, bagTotal (updateItem s.items e.id
        (fun i => { i with quantity := i.quantity + q })) bid =
        bagTotal s.items bid + (if e.bagId = bid then q else 0) :=
      fun bid => bagTotal_updateItem bid hfid_add hfbag_add hfq_add hnd hfinde
    have h2 : ∀ bid, bagTotal (updateItem (updateItem s.items e.id
        (fun i => { i with quantity := i.quantity + q })) itemId
        (fun i => { i with quantity := i.quantity - q })) bid =
        bagTotal s.items bid + (if e.bagId = bid then q else 0) +
          (if it.bagId = bid then -q else 0) := by
      intro bid
      rw [bagTotal_updateItem bid hfid_sub hfbag_sub hfq_sub hnd1 hfind1, h1]
    by_cases hdel : it.quantity - q ≤ 0
    · -- source row reaches zero and is deleted
      have hq0 : it.quantity - q = 0 := by omega
      have hnd2 : ((updateItem (updateItem s.items e.id
          (fun i => { i with quantity := i.quantity + q })) itemId
          (fun i => { i with quantity := i.quantity - q })).map (·.id)).Nodup := by
        rw [updateItem_map_id hfid_sub, updateItem_map_id hfid_add]
        exact hnd
      have hfind2 : (updateItem (updateItem s.items e.id
          (fun i => { i with quantity := i.quantity + q })) itemId
          (fun i => { i with quantity := i.quantity - q })).find?
            (fun i => decide (i.id = itemId)) =
          some { it with quantity := it.quantity - q } := by
        rw [find?_updateItem hfid_sub, hfind1]
        simp only [Option.map_some']
        rw [if_pos hitid]
      have h3 : ∀ bid, bagTotal (removeItemById (updateItem (updateItem
          s.items e.id (fun i => { i with quantity := i.quantity + q }))
          itemId (fun i => { i with quantity := i.quantity - q })) itemId)
          bid =
          bagTotal s.items bid + (if e.bagId = bid then q else 0) +
            (if it.bagId = bid then -q else 0) := by
        intro bid
        rw [bagTotal_removeItemById bid hnd2 hfind2, h2]
        have : ({ it with quantity := it.quantity - q } : ItemRow).quantity
            = 0 := hq0
        rw [this]
        simp
      simp only [handle_transfer, findItemById, hit, htb, hfb, hE,
        not_le.mpr hq, not_lt.mpr hle, hbag, if_false, if_true, hdel,
        ite_true, ite_false, if_pos hdel]
      refine ⟨trivial, ?_⟩
      rw [h3 it.bagId, h3 toBagId, he_bag,
        if_neg (fun h => hbag h.symm), if_pos rfl, if_pos rfl,
        if_neg hbag]
      ring
    · simp only [handle_transfer, findItemById, hit, htb, hfb, hE,
        not_le.mpr hq, not_lt.mpr hle, hbag, if_false, if_true,
        if_neg hdel, ite_true, ite_false]
      refine ⟨trivial, ?_⟩
      rw [h2 it.bagId, h2 toBagId, he_bag,
        if_neg (fun h => hbag h.symm), if_pos rfl, if_pos rfl,
        if_neg hbag]
      ring
  | none =>
    set newItem : ItemRow :=
      { id := s.nextItemId, name := it.name, itype := it.itype,
        brand := it.brand, size := it.size, genericName := none,
        quantity := q, expiry := it.expiry, bagId := toBagId,
        productId := it.productId } with hnew
    have hnd1 : ((s.items ++ [newItem]).map (·.id)).Nodup := by
      rw [List.map_append]
      rw [List.nodup_append]
      refine ⟨hnd, List.nodup_singleton _, ?_⟩
      intro a ha hb
      simp only [List.map_cons, List.map_nil, List.mem_singleton] at hb
      subst hb
      obtain ⟨i, hi, hia⟩ := List.mem_map.mp ha
      exact absurd (hia ▸ hlt i hi) (by simp [hnew])
    have hmem1 : it ∈ s.items ++ [newItem] := List.mem_append_left _ hitmem
    have hfind1 : (s.items ++ [newItem]).find?
        (fun i => decide (i.id = itemId)) = some it := by
      rw [← hitid]
      exact find?_id_of_mem hnd1 hmem1
    have h1 : ∀ bid, bagTotal (s.items ++ [newItem]) bid =
        bagTotal s.items bid + (if toBagId = bid then q else 0) := by
      intro bid
      rw [bagTotal_append, bagTotal_cons, bagTotal_nil]
      simp [hnew]
    have h2 : ∀ bid, bagTotal (updateItem (s.items ++ [newItem]) itemId
        (fun i => { i with quantity := i.quantity - q })) bid =
        bagTotal s.items bid + (if toBagId = bid then q else 0) +
          (if it.bagId = bid then -q else 0) := by
      intro bid
      rw [bagTotal_updateItem bid hfid_sub hfbag_sub hfq_sub hnd1 hfind1, h1]
    by_cases hdel : it.quantity - q ≤ 0
    · have hq0 : it.quantity - q = 0 := by omega
      have hnd2 : ((updateItem (s.items ++ [newItem]) itemId
          (fun i => { i with quantity := i.quantity - q })).map (·.id)).Nodup := by
        rw [updateItem_map_id hfid_sub]; exact hnd1
      have hfind2 : (updateItem (s.items ++ [newItem]) itemId
          (fun i => { i with quantity := i.quantity - q })).find?
            (fun i => decide (i.id = itemId)) =
          some { it with quantity := it.quantity - q } := by
        rw [find?_updateItem hfid_sub, hfind1]
        simp only [Option.map_some']
        rw [if_pos hitid]
      have h3 : ∀ bid, bagTotal (removeItemById (updateItem
          (s.items ++ [newItem]) itemId
          (fun i => { i with quantity := i.quantity - q })) itemId) bid =
          bagTotal s.items bid + (if toBagId = bid then q else 0) +
            (if it.bagId = bid then -q else 0) := by
        intro bid
        rw [bagTotal_removeItemById bid hnd2 hfind2, h2]
        have : ({ it with quantity := it.quantity - q } : ItemRow).quantity
            = 0 := hq0
        rw [this]
        simp
      simp only [handle_transfer, findItemById, hit, htb, hfb, hE,
        not_le.mpr hq, not_lt.mpr hle, hbag, if_false, if_true,
        if_pos hdel, ite_true, ite_false]
      refine ⟨trivial, ?_⟩
      rw [h3 it.bagId, h3 toBagId, if_neg (fun h => hbag h.symm),
        if_pos rfl, if_pos rfl, if_neg hbag]
      ring
    · simp only [handle_transfer, findItemById, hit, htb, hfb, hE,
        not_le.mpr hq, not_lt.mpr hle, hbag, if_false, if_true,
        if_neg hdel, ite_true, ite_false]
      refine ⟨trivial, ?_⟩
      rw [h2 it.bagId, h2 toBagId, if_neg (fun h => hbag h.symm),
        if_pos rfl, if_pos rfl, if_neg hbag]
      ring

/-! ## A small concrete state, used to witness the general theorems

Mirrors the seed data of `app.py`: a Cabinet and a medical bag, one saline
record in the Cabinet. -/

def demoSaline : ItemRow :=
  { id := 1, name := "Normal Saline 0.9%", itype := "IV Fluids",
    brand := none, size := some "500ml", genericName := none, quantity := 25,
    expiry := none, bagId := 1, productId := none }

def demoCabinet : BagRow :=
  { id := 1, name := "Cabinet", description := "Central storage cabinet",
    location := "cabinet" }

def demoBag : BagRow :=
  { id := 2, name := "Emergency Bag 1",
    description := "Primary emergency response bag", location := "bag" }

def demoDB : DB :=
  { bags := [demoCabinet, demoBag], items := [demoSaline], products := [],
    movements := [], undoActions := [], permDeletions := [],
    bagMinimums := [], audits := [], nextItemId := 2, nextBagId := 3,
    nextProductId := 1, nextUndoId := 1, now := 0 }

/-- Witness for C6: transferring 10 of the 25 saline units from the Cabinet
to the bag conserves the combined total. -/
theorem C6_transfer_conserves_witness :
    (handle_transfer demoDB 7 1 2 10).2 = true ∧
    bagTotal (handle_transfer demoDB 7 1 2 10).1.items 1 +
      bagTotal (handle_transfer demoDB 7 1 2 10).1.items 2 =
    bagTotal demoDB.items 1 + bagTotal demoDB.items 2 :=
  C6_transfer_conserves demoDB 7 1 2 10 demoSaline demoBag demoCabinet
    ⟨by decide, by decide⟩ (by decide) (by decide) (by decide) (by decide)
    (by decide) (by decide)

/-! ## C8: what a successful mutation records -/

/-- C8 (amended): a successful usage, a successful single transfer and a
successful manual addition each append exactly one `MovementRow` and one
`UndoActionRow`; a bulk audit adjustment that changes at least one count
appends one `MovementRow` per changed count and exactly one `UndoActionRow`
covering the batch; but a successful wastage appends only the `MovementRow`:
`handle_wastage` records no compensating action at all. -/
theorem C8_mutation_records (s : DB) (uid itemId : Nat) (q : Int)
    (patient notes reason : String) (it : ItemRow) (fromBag : BagRow)
    (toBagId : Nat) (toBag : BagRow)
    (addBagId : Nat) (addBag : BagRow) (gname : Option String)
    (name ty : String) (brand size : Option String) (qty : Int)
    (expiry : Option Nat) (minStock : Int)
    (auditBagId : Option Nat) (entries : List AuditEntry)
    (hit : findItemById s.items itemId = some it)
    (hfb : findBagById s.bags it.bagId = some fromBag)
    (hq : 0 < q) (hle : q ≤ it.quantity) (hpat : ¬ patient = "")
    (htb : findBagById s.bags toBagId = some toBag)
    (hne : it.bagId ≠ toBagId)
    (hab : findBagById s.bags addBagId = some addBag)
    (hname : ¬ name = "") (hty : ¬ ty = "")
    (hch : (entries.filter
      (fun e => !decide (e.newCount - e.currentQty = 0))).isEmpty
      = false) :
    ((handle_usage s uid itemId q patient notes).2 = true ∧
      (handle_usage s uid itemId q patient notes).1.movements.length =
        s.movements.length + 1 ∧
      (handle_usage s uid itemId q patient notes).1.undoActions.length =
        s.undoActions.length + 1) ∧
    ((handle_transfer s uid itemId toBagId q).2 = true ∧
      (handle_transfer s uid itemId toBagId q).1.movements.length =
        s.movements.length + 1 ∧
      (handle_transfer s uid itemId toBagId q).1.undoActions.length =
        s.undoActions.length + 1) ∧
    ((handle_manual_addition s uid addBagId gname name ty brand size qty
        expiry minStock).2 = true ∧
      (handle_manual_addition s uid addBagId gname name ty brand size qty
        expiry minStock).1.movements.length = s.movements.length + 1 ∧
      (handle_manual_addition s uid addBagId gname name ty brand size qty
        expiry minStock).1.undoActions.length =
        s.undoActions.length + 1) ∧
    ((handle_inventory_audit s uid auditBagId entries).2 = true ∧
      (handle_inventory_audit s uid auditBagId
          entries).1.movements.length =
        s.movements.length + (entries.filter
          (fun e => !decide (e.newCount - e.currentQty = 0))).length ∧
      (handle_inventory_audit s uid auditBagId
          entries).1.undoActions.length = s.undoActions.length + 1) ∧
    ((handle_wastage s itemId q reason).2 = true ∧
      (handle_wastage s itemId q reason).1.movements.length =
        s.movements.length + 1 ∧
      (handle_wastage s itemId q reason).1.undoActions = s.undoActions) := by
  refine ⟨?_, ?_, ?_, ?_, ?_⟩
  · simp [handle_usage, hit, hfb, not_le.mpr hq, not_lt.mpr hle, hpat]
  · simp [handle_transfer, hit, htb, hfb, hne, not_le.mpr hq,
      not_lt.mpr hle]
  · cases hp : findProductByName s.products name <;>
      cases he : findItemByKey s.items name ty brand size expiry addBag.id <;>
      simp [handle_manual_addition, hab, hname, hty, hp, he]
  · simp [handle_inventory_audit, hch]
  · simp [handle_wastage, hit, hfb, not_le.mpr hq, not_lt.mpr hle]

/-- A single audit form row for the demo state: the saline count is revised
from 25 down to 20. -/
def demoAuditEntry : AuditEntry :=
  { itemName := "Normal Saline 0.9%", itemType := "IV Fluids",
    itemSize := some "500ml", currentQty := 25, newCount := 20 }

/-- Witness for C8: on the demo state a usage of 5 saline units, a transfer
of 5 to the bag and a manual gauze addition each record one movement and one
undo action; an audit revising the saline count records one movement and one
undo action; a wastage of 5 records one movement and no undo action. -/
theorem C8_mutation_records_witness :
    ((handle_usage demoDB 7 1 5 "Jordan" "").2 = true ∧
      (handle_usage demoDB 7 1 5 "Jordan" "").1.movements.length =
        demoDB.movements.length + 1 ∧
      (handle_usage demoDB 7 1 5 "Jordan" "").1.undoActions.length =
        demoDB.undoActions.length + 1) ∧
    ((handle_transfer demoDB 7 1 2 5).2 = true ∧
      (handle_transfer demoDB 7 1 2 5).1.movements.length =
        demoDB.movements.length + 1 ∧
      (handle_transfer demoDB 7 1 2 5).1.undoActions.length =
        demoDB.undoActions.length + 1) ∧
    ((handle_manual_addition demoDB 7 1 none "Sterile Gauze 4x4"
        "Consumable Dressings/Swabs" none none 5 none 0).2 = true ∧
      (handle_manual_addition demoDB 7 1 none "Sterile Gauze 4x4"
        "Consumable Dressings/Swabs" none none 5 none
        0).1.movements.length = demoDB.movements.length + 1 ∧
      (handle_manual_addition demoDB 7 1 none "Sterile Gauze 4x4"
        "Consumable Dressings/Swabs" none none 5 none
        0).1.undoActions.length = demoDB.undoActions.length + 1) ∧
    ((handle_inventory_audit demoDB 7 none [demoAuditEntry]).2 = true ∧
      (handle_inventory_audit demoDB 7 none
          [demoAuditEntry]).1.movements.length =
        demoDB.movements.length + ([demoAuditEntry].filter
          (fun e => !decide (e.newCount - e.currentQty = 0))).length ∧
      (handle_inventory_audit demoDB 7 none
          [demoAuditEntry]).1.undoActions.length =
        demoDB.undoActions.length + 1) ∧
    ((handle_wastage demoDB 1 5 "expired").2 = true ∧
      (handle_wastage demoDB 1 5 "expired").1.movements.length =
        demoDB.movements.length + 1 ∧
      (handle_wastage demoDB 1 5 "expired").1.undoActions =
        demoDB.undoActions) :=
  C8_mutation_records demoDB 7 1 5 "Jordan" "" "expired" demoSaline
    demoCabinet 2 demoBag 1 demoCabinet none "Sterile Gauze 4x4"
    "Consumable Dressings/Swabs" none none 5 none 0 none [demoAuditEntry]
    (by decide) (by decide) (by decide) (by decide) (by decide) (by decide)
    (by decide) (by decide) (by decide) (by decide) (by decide)

/-- C8 counterexample: the claim says *every* successful mutating operation
yields both a MovementEntry and a CompensatingAction.  A successful wastage
(disposal) on the demo state yields a movement but leaves the undo-action
table empty, so no compensating action exists for the acting user. -/
theorem C8_counterexample :
    (handle_wastage demoDB 1 5 "expired").2 = true ∧
    (handle_wastage demoDB 1 5 "expired").1.movements.length = 1 ∧
    (handle_wastage demoDB 1 5 "expired").1.undoActions = [] := by
  decide

/-! ## C9 and C10: deletion of a storage location -/

/-- C9 (amended): the bag named `Cabinet` cannot be deleted — the attempt
fails and leaves the state untouched — but a non-default bag is deleted with
*no* zero-stock precondition: its positive-quantity records are first
reassigned to the Cabinet, and the bag row is removed whatever stock it
held. -/
theorem C9_bag_deletion (s : DB) (uid bagId : Nat) (bag : BagRow)
    (hfind : findBagById s.bags bagId = some bag) :
    (bag.name = "Cabinet" → handle_bag_delete s uid bagId = (s, false)) ∧
    (∀ cabinet, ¬ bag.name = "Cabinet" →
      findBagByName s.bags "Cabinet" = some cabinet →
      (handle_bag_delete s uid bagId).2 = true ∧
      ∀ b ∈ (handle_bag_delete s uid bagId).1.bags, b.id ≠ bag.id) := by
  constructor
  · intro hcab
    simp [handle_bag_delete, hfind, hcab]
  · intro cabinet hne hcab
    simp only [handle_bag_delete, hfind, hne, if_false, hcab, ite_false]
    refine ⟨trivial, ?_⟩
    intro b hb
    have := (List.mem_filter.mp hb).2
    simpa using this

/-- Witness for C9: the demo bag (empty, not the Cabinet) is deleted, and an
attempt to delete the Cabinet itself returns the state unchanged. -/
theorem C9_bag_deletion_witness :
    (handle_bag_delete demoDB 7 1 = (demoDB, false)) ∧
    ((handle_bag_delete demoDB 7 2).2 = true ∧
      ∀ b ∈ (handle_bag_delete demoDB 7 2).1.bags, b.id ≠ 2) := by
  constructor
  · exact (C9_bag_deletion demoDB 7 1 demoCabinet (by decide)).1 (by decide)
  · exact (C9_bag_deletion demoDB 7 2 demoBag (by decide)).2 demoCabinet
      (by decide) (by decide)

/-- A variant of the demo state whose medical bag holds the 25 saline
units. -/
def demoDBStockedBag : DB :=
  { demoDB with items := [{ demoSaline with bagId := 2 }] }

/-- C9 counterexample: the claim says a location is deleted *only when it
holds zero stock*.  Deleting the demo bag while it holds 25 units succeeds
and removes the bag row (the stock is reassigned to the Cabinet first). -/
theorem C9_counterexample :
    bagTotal demoDBStockedBag.items 2 = 25 ∧
    (handle_bag_delete demoDBStockedBag 7 2).2 = true ∧
    (handle_bag_delete demoDBStockedBag 7 2).1.bags = [demoCabinet] := by
  decide

/-- C10: when a non-default bag is deleted, only its positive-quantity items
are reassigned to the Cabinet; a zero-quantity item survives with `bagId`
still pointing at the deleted bag, whose row no longer exists — the
one-owning-location invariant is not preserved. -/
theorem C10_zero_qty_item_orphaned (s : DB) (uid bagId : Nat)
    (bag cabinet : BagRow) (z : ItemRow)
    (hfind : findBagById s.bags bagId = some bag)
    (hne : ¬ bag.name = "Cabinet")
    (hcab : findBagByName s.bags "Cabinet" = some cabinet)
    (hz : z ∈ s.items) (hzbag : z.bagId = bag.id) (hzq : z.quantity ≤ 0) :
    (handle_bag_delete s uid bagId).2 = true ∧
    z ∈ (handle_bag_delete s uid bagId).1.items ∧
    ∀ b ∈ (handle_bag_delete s uid bagId).1.bags, b.id ≠ z.bagId := by
  simp only [handle_bag_delete, hfind, hne, if_false, hcab, ite_false]
  refine ⟨trivial, ?_, ?_⟩
  · refine List.mem_map.mpr ⟨z, hz, ?_⟩
    rw [if_neg (fun h => by omega)]
  · intro b hb
    have := (List.mem_filter.mp hb).2
    rw [hzbag]
    simpa using this

/-- A variant of the demo state whose medical bag holds one zero-quantity
record. -/
def demoDBZeroBag : DB :=
  { demoDB with items := [{ demoSaline with bagId := 2, quantity := 0 }] }

/-- Witness for C10 on the zero-quantity demo state: after the deletion the
record still exists with `bagId = 2`, and no bag with id 2 remains. -/
theorem C10_zero_qty_item_orphaned_witness :
    (handle_bag_delete demoDBZeroBag 7 2).2 = true ∧
    ({ demoSaline with bagId := 2, quantity := 0 } : ItemRow) ∈
      (handle_bag_delete demoDBZeroBag 7 2).1.items ∧
    ∀ b ∈ (handle_bag_delete demoDBZeroBag 7 2).1.bags,
      b.id ≠ ({ demoSaline with bagId := 2, quantity := 0 } : ItemRow).bagId :=
  C10_zero_qty_item_orphaned demoDBZeroBag 7 2 demoBag demoCabinet
    { demoSaline with bagId := 2, quantity := 0 } (by decide) (by decide)
    (by decide) (by decide) (by decide) (by decide)

/-! ## C7: consolidation of duplicate records -/

theorem minIdItem_mem : ∀ {l : List ItemRow} {m : ItemRow},
    minIdItem l = some m → m ∈ l := by
  intro l
  induction l with
  | nil => intro m h; cases h
  | cons x xs ih =>
    intro m h
    simp only [minIdItem] at h
    cases hxs : minIdItem xs with
    | none => rw [hxs] at h; simp at h; simp [h]
    | some m' =>
      rw [hxs] at h
      simp only [Option.some.injEq] at h
      by_cases hlt : m'.id < x.id
      · rw [if_pos hlt] at h
        exact List.mem_cons_of_mem x (h ▸ ih hxs)
      · rw [if_neg hlt] at h
        simp [← h]

theorem minIdItem_le : ∀ {l : List ItemRow} {m : ItemRow},
    minIdItem l = some m → ∀ x ∈ l, m.id ≤ x.id := by
  intro l
  induction l with
  | nil => intro m h; cases h
  | cons x xs ih =>
    intro m h y hy
    simp only [minIdItem] at h
    cases hxs : minIdItem xs with
    | none =>
      rw [hxs] at h
      simp only [Option.some.injEq] at h
      have hxs_nil : xs = [] := by
        cases xs with
        | nil => rfl
        | cons a as => simp only [minIdItem] at hxs; cases hmm : minIdItem as
            <;> rw [hmm] at hxs <;> cases hxs
      subst hxs_nil
      simp only [List.mem_singleton] at hy
      subst hy; subst h; exact le_refl _
    | some m' =>
      rw [hxs] at h
      simp only [Option.some.injEq] at h
      rcases List.mem_cons.mp hy with hyx | hy'
      · subst hyx
        by_cases hlt : m'.id < y.id
        · rw [if_pos hlt] at h; subst h; omega
        · rw [if_neg hlt] at h; subst h; exact le_refl _
      · have hle' := ih hxs y hy'
        by_cases hlt : m'.id < x.id
        · rw [if_pos hlt] at h; subst h; exact hle'
        · rw [if_neg hlt] at h; subst h; omega

theorem filterMap_consolidate_no_pid (p : ItemRow → Bool) (pid : Nat)
    (updOf : ItemRow → ItemRow) :
    ∀ (l : List ItemRow), (∀ x ∈ l, x.id ≠ pid) →
    l.filterMap (fun i => if p i then
        (if i.id = pid then some (updOf i) else none) else some i) =
      l.filter (fun i => !p i) := by
  intro l
  induction l with
  | nil => intro _; rfl
  | cons x xs ih =>
    intro h
    have hx : x.id ≠ pid := h x (List.mem_cons_self x xs)
    have ihx := ih (fun y hy => h y (List.mem_cons_of_mem x hy))
    by_cases hp : p x
    · have hfx : (if p x = true then
          (if x.id = pid then some (updOf x) else none) else some x) =
          none := by
        rw [if_pos hp, if_neg hx]
      simp only [List.filterMap_cons, hfx]
      rw [List.filter_cons_of_neg (by simp [hp])]
      exact ihx
    · have hfx : (if p x = true then
          (if x.id = pid then some (updOf x) else none) else some x) =
          some x := by
        rw [if_neg hp]
      simp only [List.filterMap_cons, hfx]
      rw [List.filter_cons_of_pos (by simp [hp]), ihx]

theorem filterMap_consolidate (p : ItemRow → Bool) (primary : ItemRow)
    (updOf : ItemRow → ItemRow) (hp_upd : p (updOf primary) = true) :
    ∀ (l : List ItemRow), (l.map (·.id)).Nodup → primary ∈ l →
    p primary = true →
    ((l.filterMap (fun i => if p i then
        (if i.id = primary.id then some (updOf i) else none) else some i)).filter
          p = [updOf primary] ∧
     (l.filterMap (fun i => if p i then
        (if i.id = primary.id then some (updOf i) else none) else some i)).filter
          (fun i => !p i) = l.filter (fun i => !p i)) := by
  intro l
  induction l with
  | nil => intro _ hmem; cases hmem
  | cons x xs ih =>
    intro hnd hmem hp_primary
    have hnd_head : x.id ∉ xs.map (·.id) :=
      (List.nodup_cons.mp (by simpa using hnd)).1
    have hnd_tail : (xs.map (·.id)).Nodup :=
      (List.nodup_cons.mp (by simpa using hnd)).2
    rcases List.mem_cons.mp hmem with hpx | hmem'
    · -- head is the primary
      subst hpx
      have hfx : (if p primary = true then
          (if primary.id = primary.id then some (updOf primary) else none)
          else some primary) = some (updOf primary) := by
        rw [if_pos hp_primary, if_pos rfl]
      have hrest : xs.filterMap (fun i => if p i then
          (if i.id = primary.id then some (updOf i) else none) else some i) =
          xs.filter (fun i => !p i) := by
        refine filterMap_consolidate_no_pid p primary.id updOf xs
          (fun y hy hid => ?_)
        exact hnd_head (hid ▸ List.mem_map_of_mem _ hy)
      have hmain : (primary :: xs).filterMap (fun i => if p i then
          (if i.id = primary.id then some (updOf i) else none) else some i) =
          updOf primary :: xs.filter (fun i => !p i) := by
        rw [List.filterMap_cons, hfx]
        exact congrArg (updOf primary :: ·) hrest
      rw [hmain]
      constructor
      · rw [List.filter_cons_of_pos hp_upd, List.filter_filter]
        have hfalse : ∀ a : ItemRow, (p a && !p a) = false := by
          intro a; cases p a <;> rfl
        simp only [hfalse, List.filter_false]
      · rw [List.filter_cons_of_neg (by simp [hp_upd]), List.filter_filter]
        rw [List.filter_cons_of_neg (by simp [hp_primary])]
        congr 1
        funext a
        cases p a <;> rfl
    · have hx_ne : x.id ≠ primary.id := by
        intro h
        exact hnd_head (h ▸ List.mem_map_of_mem _ hmem')
      obtain ⟨ih1, ih2⟩ := ih hnd_tail hmem' hp_primary
      by_cases hp : p x
      · have hfx : (if p x = true then
            (if x.id = primary.id then some (updOf x) else none)
            else some x) = none := by
          rw [if_pos hp, if_neg hx_ne]
        have hmain : (x :: xs).filterMap (fun i => if p i then
            (if i.id = primary.id then some (updOf i) else none)
            else some i) =
            xs.filterMap (fun i => if p i then
              (if i.id = primary.id then some (updOf i) else none)
              else some i) := by
          rw [List.filterMap_cons, hfx]
        rw [hmain]
        refine ⟨ih1, ?_⟩
        rw [ih2]
        exact (List.filter_cons_of_neg (by simp [hp])).symm
      · have hfx : (if p x = true then
            (if x.id = primary.id then some (updOf x) else none)
            else some x) = some x := by
          rw [if_neg hp]
        have hmain : (x :: xs).filterMap (fun i => if p i then
            (if i.id = primary.id then some (updOf i) else none)
            else some i) =
            x :: xs.filterMap (fun i => if p i then
              (if i.id = primary.id then some (updOf i) else none)
              else some i) := by
          rw [List.filterMap_cons, hfx]
        rw [hmain]
        constructor
        · rw [List.filter_cons_of_neg (by simp [hp]), ih1]
        · rw [List.filter_cons_of_pos (by simp [hp]), ih2]
          exact (List.filter_cons_of_pos (by simp [hp])).symm

/-- C7: consolidating `N ≥ 2` records that share one descriptive key at one
location keeps exactly one record — the one with the lowest id — carrying
the summed quantity, leaves every other record of the state untouched, and
appends exactly one `consolidation` movement for the group. -/
theorem C7_consolidation (s : DB) (name ty : String)
    (brand size : Option String) (expiry : Option Nat) (bagId : Nat)
    (bag : BagRow) (primary : ItemRow)
    (hnd : (s.items.map (·.id)).Nodup)
    (hmin : minIdItem (s.items.filter
      (dupKeyMatch name ty brand size expiry bagId)) = some primary)
    (hbag : findBagById s.bags primary.bagId = some bag)
    (hlen : 2 ≤ (s.items.filter
      (dupKeyMatch name ty brand size expiry bagId)).length) :
    (consolidate_duplicate_items s name ty brand size expiry
        bagId).items.filter (dupKeyMatch name ty brand size expiry bagId) =
      [{ primary with quantity := ((s.items.filter
          (dupKeyMatch name ty brand size expiry bagId)).map
            (·.quantity)).sum }] ∧
    (consolidate_duplicate_items s name ty brand size expiry
        bagId).items.filter
        (fun i => !dupKeyMatch name ty brand size expiry bagId i) =
      s.items.filter
        (fun i => !dupKeyMatch name ty brand size expiry bagId i) ∧
    (∀ j ∈ s.items.filter (dupKeyMatch name ty brand size expiry bagId),
      primary.id ≤ j.id) ∧
    (consolidate_duplicate_items s name ty brand size expiry
        bagId).movements.map (·.movementType) =
      s.movements.map (·.movementType) ++ ["consolidation"] := by
  have hmem_f : primary ∈ s.items.filter
      (dupKeyMatch name ty brand size expiry bagId) := minIdItem_mem hmin
  have hmem : primary ∈ s.items := (List.mem_filter.mp hmem_f).1
  have hp : dupKeyMatch name ty brand size expiry bagId primary = true :=
    (List.mem_filter.mp hmem_f).2
  have hp_upd : dupKeyMatch name ty brand size expiry bagId
      { primary with quantity := ((s.items.filter
        (dupKeyMatch name ty brand size expiry bagId)).map
          (·.quantity)).sum } = true := hp
  obtain ⟨h1, h2⟩ := filterMap_consolidate
    (dupKeyMatch name ty brand size expiry bagId) primary
    (fun i => { i with quantity := ((s.items.filter
      (dupKeyMatch name ty brand size expiry bagId)).map (·.quantity)).sum })
    hp_upd s.items hnd hmem hp
  have hnotle : ¬ (s.items.filter
      (dupKeyMatch name ty brand size expiry bagId)).length ≤ 1 := by omega
  refine ⟨?_, ?_, fun j hj => minIdItem_le hmin j hj, ?_⟩
  · simp only [consolidate_duplicate_items, hnotle, if_false, hmin, hbag,
      ite_false]
    exact h1
  · simp only [consolidate_duplicate_items, hnotle, if_false, hmin, hbag,
      ite_false]
    exact h2
  · simp only [consolidate_duplicate_items, hnotle, if_false, hmin, hbag,
      ite_false, List.map_append]
    rfl

/-- The demo state with two duplicate saline records (ids 1 and 2,
quantities 25 and 5) in the Cabinet. -/
def demoDupDB : DB :=
  { demoDB with
      items := [demoSaline, { demoSaline with id := 2, quantity := 5 }],
      nextItemId := 3 }

/-- Witness for C7: consolidating the duplicate saline records keeps only
record 1 with quantity 30 and appends exactly one consolidation movement. -/
theorem C7_consolidation_witness :
    (consolidate_duplicate_items demoDupDB "Normal Saline 0.9%" "IV Fluids"
        none (some "500ml") none 1).items.filter
      (dupKeyMatch "Normal Saline 0.9%" "IV Fluids" none (some "500ml")
        none 1) = [{ demoSaline with quantity := 30 }] ∧
    (consolidate_duplicate_items demoDupDB "Normal Saline 0.9%" "IV Fluids"
        none (some "500ml") none 1).movements.map (·.movementType) =
      ["consolidation"] := by
  have h := C7_consolidation demoDupDB "Normal Saline 0.9%" "IV Fluids"
    none (some "500ml") none 1 demoCabinet demoSaline (by decide) (by decide)
    (by decide) (by decide)
  refine ⟨?_, ?_⟩
  · rw [h.1]
    decide
  · rw [h.2.2.2]
    decide

/-! ## Further list lemmas, for the undo-engine theorems -/

theorem find?_unique {α : Type} {p : α → Bool} {a : α} {l : List α}
    (ha : a ∈ l) (hp : p a = true)
    (huniq : ∀ b ∈ l, p b = true → b = a) : l.find? p = some a := by
  induction l with
  | nil => cases ha
  | cons x xs ih =>
    by_cases hx : p x
    · rw [List.find?_cons_of_pos _ hx]
      rw [huniq x (List.mem_cons_self x xs) hx]
    · rw [List.find?_cons_of_neg _ hx]
      rcases List.mem_cons.mp ha with rfl | ha'
      · exact absurd hp hx
      · exact ih ha' (fun b hb hpb =>
          huniq b (List.mem_cons_of_mem x hb) hpb)

theorem updateItem_append (l₁ l₂ : List ItemRow) (iid : Nat)
    (f : ItemRow → ItemRow) :
    updateItem (l₁ ++ l₂) iid f = updateItem l₁ iid f ++ updateItem l₂ iid f := by
  simp [updateItem]

theorem updateItem_comp (l : List ItemRow) (iid : Nat)
    (f g : ItemRow → ItemRow) (hf : ∀ i, (f i).id = i.id) :
    updateItem (updateItem l iid f) iid g =
      updateItem l iid (fun i => g (f i)) := by
  induction l with
  | nil => rfl
  | cons x xs ih =>
    rw [updateItem_cons, updateItem_cons, updateItem_cons]
    by_cases hx : x.id = iid
    · rw [if_pos hx, if_pos hx, if_pos (by rw [hf]; exact hx), ih]
    · rw [if_neg hx, if_neg hx, if_neg hx, ih]

theorem updateItem_eq_self (l : List ItemRow) (iid : Nat)
    (f : ItemRow → ItemRow) (hf : ∀ i, f i = i) :
    updateItem l iid f = l := by
  induction l with
  | nil => rfl
  | cons x xs ih =>
    rw [updateItem_cons, hf, ite_self, ih]

theorem removeItemById_append (l₁ l₂ : List ItemRow) (iid : Nat) :
    removeItemById (l₁ ++ l₂) iid =
      removeItemById l₁ iid ++ removeItemById l₂ iid := by
  simp [removeItemById]

theorem removeItemById_updateItem (l : List ItemRow) (iid : Nat)
    (f : ItemRow → ItemRow) (hf : ∀ i, (f i).id = i.id) :
    removeItemById (updateItem l iid f) iid = removeItemById l iid := by
  induction l with
  | nil => rfl
  | cons x xs ih =>
    rw [updateItem_cons, removeItemById_cons]
    by_cases hx : x.id = iid
    · rw [if_pos hx, removeItemById_cons, if_pos (by rw [hf]; exact hx),
        ih, if_pos hx]
    · rw [if_neg hx, removeItemById_cons, if_neg hx, ih]

theorem mem_updateItem_of_mem {l : List ItemRow} {e : ItemRow} (iid : Nat)
    (f : ItemRow → ItemRow) (he : e ∈ l) :
    (if e.id = iid then f e else e) ∈ updateItem l iid f :=
  List.mem_map.mpr ⟨e, he, rfl⟩

/-! ## C5: consumption order of compensating actions -/

/-- C5 (amended): when the actor's *only* unconsumed compensating action is a
usage action whose item still resolves, one undo consumes it and a second
undo reports `NothingToUndo`; and whenever no unconsumed action exists at
all, `undo_last_action` reports `NothingToUndo` and leaves the state
untouched.  (When an *older* unconsumed action remains, the second undo
consumes that older action instead — see the counterexample.) -/
theorem C5_undo_consumption (s : DB) (uid : Nat) (a : UndoActionRow)
    (itemId : Nat) (q : Int) (itemName bagName patient notes : String)
    (origQty : Int) (it : ItemRow)
    (hmem : a ∈ s.undoActions) (hauid : a.userId = uid)
    (haun : a.isUsed = false)
    (huniq : ∀ b ∈ s.undoActions, b.userId = uid → b.isUsed = false → b = a)
    (htype : a.actionType = "usage")
    (hdata : a.data = .usageData itemId q itemName bagName patient notes
      origQty)
    (hitem : findItemById s.items itemId = some it) :
    (undo_last_action s uid).2 = .ok ∧
    newestUnconsumed (undo_last_action s uid).1 uid = none ∧
    undo_last_action (undo_last_action s uid).1 uid =
      ((undo_last_action s uid).1, .noActions) ∧
    (∀ s' : DB, newestUnconsumed s' uid = none →
      undo_last_action s' uid = (s', .noActions)) := by
  have hgen : ∀ s' : DB, newestUnconsumed s' uid = none →
      undo_last_action s' uid = (s', .noActions) := by
    intro s' h
    simp only [undo_last_action, h]
  have hfind : newestUnconsumed s uid = some a := by
    refine find?_unique hmem (by simp [hauid, haun]) ?_
    intro b hb hpb
    simp only [Bool.and_eq_true, Bool.not_eq_true', decide_eq_true_eq]
      at hpb
    exact huniq b hb hpb.1 hpb.2
  have hrun : undo_last_action s uid =
      ({ s with
          items := updateItem s.items itemId
            (fun i => { i with quantity := i.quantity + q }),
          movements := s.movements.filter
            (fun m => !usageMovementMatch itemName bagName q patient m),
          undoActions := markUsed s.undoActions a.id,
          now := s.now + 1 }, .ok) := by
    simp only [undo_last_action, hfind, htype, hdata, hitem]
    rfl
  have hnone : newestUnconsumed (undo_last_action s uid).1 uid = none := by
    rw [hrun]
    refine List.find?_eq_none.mpr ?_
    intro x hx
    obtain ⟨b, hb, hbx⟩ := List.mem_map.mp hx
    by_cases hid : b.id = a.id
    · rw [if_pos hid] at hbx
      subst hbx
      simp
    · rw [if_neg hid] at hbx
      subst hbx
      simp only [Bool.and_eq_true, Bool.not_eq_true', decide_eq_true_eq,
        not_and]
      intro hu hn
      exact absurd (congrArg UndoActionRow.id (huniq b hb hu hn)) hid
  refine ⟨by rw [hrun], hnone, hgen _ hnone, hgen⟩

def demoUsageAction : UndoActionRow :=
  { id := 1, actionType := "usage",
    data := .usageData 1 2 "Normal Saline 0.9%" "Cabinet" "Jordan" "" 27,
    description := "Used 2 Normal Saline 0.9% for patient Jordan",
    userId := 7, timestamp := 0, isUsed := false }

/-- The demo state carrying exactly one (unconsumed) usage undo action. -/
def demoOneUndoDB : DB :=
  { demoDB with
      undoActions := [demoUsageAction], nextUndoId := 2, now := 1 }

/-- Witness for C5 on the one-action demo state: the first undo succeeds,
the second reports `NothingToUndo`. -/
theorem C5_undo_consumption_witness :
    (undo_last_action demoOneUndoDB 7).2 = .ok ∧
    newestUnconsumed (undo_last_action demoOneUndoDB 7).1 7 = none ∧
    undo_last_action (undo_last_action demoOneUndoDB 7).1 7 =
      ((undo_last_action demoOneUndoDB 7).1, .noActions) ∧
    (∀ s' : DB, newestUnconsumed s' 7 = none →
      undo_last_action s' 7 = (s', .noActions)) :=
  C5_undo_consumption demoOneUndoDB 7 demoUsageAction 1 2
    "Normal Saline 0.9%" "Cabinet" "Jordan" "" 27 demoSaline
    (by decide) (by decide) (by decide) (by decide) (by decide) (by decide)
    (by decide)

def demoUsageAction2 : UndoActionRow :=
  { id := 2, actionType := "usage",
    data := .usageData 1 3 "Normal Saline 0.9%" "Cabinet" "Riley" "" 28,
    description := "Used 3 Normal Saline 0.9% for patient Riley",
    userId := 7, timestamp := 1, isUsed := false }

/-- The demo state with two unconsumed usage undo actions for user 7
(action 2 is the newer). -/
def demoTwoUndoDB : DB :=
  { demoDB with
      undoActions := [demoUsageAction2, demoUsageAction], nextUndoId := 3,
      now := 2 }

/-- C5 counterexample: after the first undo consumes the newest unconsumed
action, a second undo with no intervening mutation does *not* report
`NothingToUndo`: it succeeds and consumes the older unconsumed action, which
the claim says is never acted upon. -/
theorem C5_counterexample :
    (undo_last_action demoTwoUndoDB 7).2 = .ok ∧
    (undo_last_action (undo_last_action demoTwoUndoDB 7).1 7).2 = .ok ∧
    (undo_last_action (undo_last_action demoTwoUndoDB 7).1 7).2 ≠
      .noActions ∧
    ((undo_last_action (undo_last_action demoTwoUndoDB 7).1
        7).1.undoActions.map (·.isUsed)) = [true, true] := by
  decide

/-! ## C4: undoing an addition -/

/-- C4 (amended): undoing an addition that was merged into an existing
record deletes the *whole merged record* (it never decrements by the added
amount); it deletes the matching addition movement(s); and it never deletes
the Product, because the recorded `product_created` flag — computed after
the product row has been added and flushed — is always false. -/
theorem C4_undo_addition (s : DB) (uid bagId : Nat)
    (gname : Option String) (name ty : String) (brand size : Option String)
    (qty : Int) (expiry : Option Nat) (minStock : Int)
    (bag : BagRow) (e : ItemRow)
    (hbag : findBagById s.bags bagId = some bag)
    (hname : ¬ name = "") (hty : ¬ ty = "")
    (hkey : findItemByKey s.items name ty brand size expiry bag.id = some e)
    (hnd : (s.items.map (·.id)).Nodup)
    (huniq : ∀ i ∈ s.items,
      addedItemMatch name ty brand size bag.id (e.quantity + qty) i = true →
      i.id = e.id)
    (hnomov : ∀ m ∈ s.movements,
      additionMovementMatch name bag.name (e.quantity + qty) m = false) :
    (handle_manual_addition s uid bagId gname name ty brand size qty expiry
      minStock).2 = true ∧
    (undo_last_action (handle_manual_addition s uid bagId gname name ty
      brand size qty expiry minStock).1 uid).2 = .ok ∧
    (undo_last_action (handle_manual_addition s uid bagId gname name ty
      brand size qty expiry minStock).1 uid).1.items =
      removeItemById s.items e.id ∧
    (undo_last_action (handle_manual_addition s uid bagId gname name ty
      brand size qty expiry minStock).1 uid).1.products =
      (handle_manual_addition s uid bagId gname name ty brand size qty
        expiry minStock).1.products ∧
    (undo_last_action (handle_manual_addition s uid bagId gname name ty
      brand size qty expiry minStock).1 uid).1.movements = s.movements := by
  have hemem : e ∈ s.items := List.mem_of_find?_eq_some hkey
  have hepred := List.find?_some hkey
  simp only [decide_eq_true_eq] at hepred
  obtain ⟨heN, heT, heB, heS, heE, heBag⟩ := hepred
  -- restate the selector hypotheses through e's own fields
  rw [← heN, ← heT, ← heB, ← heS] at huniq
  rw [← heN] at hnomov
  -- the updated merge target is the unique row the undo selector finds
  have hsel : ∀ items1 : List ItemRow,
      items1 = updateItem s.items e.id
        (fun i => { i with quantity := i.quantity + qty }) →
      items1.find? (addedItemMatch e.name e.itype e.brand e.size bag.id
        (e.quantity + qty)) =
      some { e with quantity := e.quantity + qty } := by
    intro items1 h1
    subst h1
    refine find?_unique ?_ ?_ ?_
    · have := mem_updateItem_of_mem (l := s.items) e.id
        (fun i => { i with quantity := i.quantity + qty }) hemem
      rwa [if_pos rfl] at this
    · simp [addedItemMatch, heBag]
    · intro b hb hPb
      obtain ⟨i, hi, hbi⟩ := List.mem_map.mp hb
      by_cases hid : i.id = e.id
      · have : i = e := List.inj_on_of_nodup_map hnd hi hemem hid
        subst this
        rw [if_pos rfl] at hbi
        exact hbi.symm
      · rw [if_neg hid] at hbi
        subst hbi
        exact absurd (huniq i hi hPb) hid
  -- the appended addition movement is the only one the undo filter removes
  have hmovs : ∀ mv : MovementRow,
      additionMovementMatch e.name bag.name (e.quantity + qty) mv = true →
      (s.movements ++ [mv]).filter
        (fun m => !additionMovementMatch e.name bag.name (e.quantity + qty)
          m) = s.movements := by
    intro mv hmv
    rw [List.filter_append]
    rw [List.filter_eq_self.mpr (fun m hm => by simp [hnomov m hm])]
    rw [List.filter_cons_of_neg (by simp [hmv]), List.filter_nil,
      List.append_nil]
  cases hP : findProductByName s.products name with
  | some p =>
    have hrun1 : handle_manual_addition s uid bagId gname name ty brand size
        qty expiry minStock =
        ({ s with
            items := updateItem s.items e.id
              (fun i => { i with quantity := i.quantity + qty }),
            movements := s.movements ++
              [{ itemName := e.name, itemType := e.itype, itemSize := e.size,
                 quantity := e.quantity + qty, movementType := "addition",
                 fromBag := none, toBag := some bag.name,
                 notes := "Added manually", patientName := none,
                 expiry := none, timestamp := s.now }],
            undoActions :=
              { id := s.nextUndoId, actionType := "add_item",
                data := .addItem e.name e.itype e.brand e.size
                  (e.quantity + qty) e.expiry bag.id bag.name (some p.id)
                  false,
                description := "Added " ++ toString (e.quantity + qty) ++
                  " " ++ e.name ++ " to " ++ bag.name,
                userId := uid, timestamp := s.now, isUsed := false } ::
                s.undoActions,
            nextUndoId := s.nextUndoId + 1, now := s.now + 1 }, true) := by
      simp only [handle_manual_addition, hbag, hname, hty, hP, hkey,
        if_false, ite_false]
      rfl
    have hs1 : (handle_manual_addition s uid bagId gname name ty brand size
        qty expiry minStock).1 = _ := congrArg Prod.fst hrun1
    rw [hrun1]
    have hfound : newestUnconsumed (Prod.fst (α := DB) (β := Bool)
        (({ s with
            items := updateItem s.items e.id
              (fun i => { i with quantity := i.quantity + qty }),
            movements := s.movements ++
              [{ itemName := e.name, itemType := e.itype, itemSize := e.size,
                 quantity := e.quantity + qty, movementType := "addition",
                 fromBag := none, toBag := some bag.name,
                 notes := "Added manually", patientName := none,
                 expiry := none, timestamp := s.now }],
            undoActions :=
              { id := s.nextUndoId, actionType := "add_item",
                data := .addItem e.name e.itype e.brand e.size
                  (e.quantity + qty) e.expiry bag.id bag.name (some p.id)
                  false,
                description := "Added " ++ toString (e.quantity + qty) ++
                  " " ++ e.name ++ " to " ++ bag.name,
                userId := uid, timestamp := s.now, isUsed := false } ::
                s.undoActions,
            nextUndoId := s.nextUndoId + 1, now := s.now + 1 }, true))) uid =
        some
          { id := s.nextUndoId, actionType := "add_item",
            data := .addItem e.name e.itype e.brand e.size (e.quantity + qty)
              e.expiry bag.id bag.name (some p.id) false,
            description := "Added " ++ toString (e.quantity + qty) ++ " " ++
              e.name ++ " to " ++ bag.name,
            userId := uid, timestamp := s.now, isUsed := false } := by
      simp only [newestUnconsumed]
      exact List.find?_cons_of_pos _ (by simp)
    simp only [undo_last_action, hfound, hsel _ rfl]
    refine ⟨trivial, rfl, ?_, rfl, ?_⟩
    · show removeItemById (updateItem s.items e.id
        (fun i => { i with quantity := i.quantity + qty })) e.id =
        removeItemById s.items e.id
      exact removeItemById_updateItem _ _ _ (fun i => rfl)
    · exact hmovs _ (by simp [additionMovementMatch])
  | none =>
    have hP2 : findProductByName (s.products ++
        [{ id := s.nextProductId, name := name, ptype := ty,
           minimumStock := minStock }]) name =
        some
          { id := s.nextProductId, name := name, ptype := ty,
            minimumStock := minStock } := by
      rw [findProductByName] at hP ⊢
      rw [List.find?_append, hP]
      simp
    have hrun1 : handle_manual_addition s uid bagId gname name ty brand size
        qty expiry minStock =
        ({ s with
            products := s.products ++
              [{ id := s.nextProductId, name := name, ptype := ty,
                 minimumStock := minStock }],
            items := updateItem s.items e.id
              (fun i => { i with quantity := i.quantity + qty }),
            movements := s.movements ++
              [{ itemName := e.name, itemType := e.itype, itemSize := e.size,
                 quantity := e.quantity + qty, movementType := "addition",
                 fromBag := none, toBag := some bag.name,
                 notes := "Added manually", patientName := none,
                 expiry := none, timestamp := s.now }],
            undoActions :=
              { id := s.nextUndoId, actionType := "add_item",
                data := .addItem e.name e.itype e.brand e.size
                  (e.quantity + qty) e.expiry bag.id bag.name
                  (some s.nextProductId) false,
                description := "Added " ++ toString (e.quantity + qty) ++
                  " " ++ e.name ++ " to " ++ bag.name,
                userId := uid, timestamp := s.now, isUsed := false } ::
                s.undoActions,
            nextProductId := s.nextProductId + 1,
            nextUndoId := s.nextUndoId + 1, now := s.now + 1 }, true) := by
      simp only [handle_manual_addition, hbag, hname, hty, hP, hkey, hP2,
        if_false, ite_false]
      rfl
    rw [hrun1]
    have hfound : newestUnconsumed (Prod.fst (α := DB) (β := Bool)
        (({ s with
            products := s.products ++
              [{ id := s.nextProductId, name := name, ptype := ty,
                 minimumStock := minStock }],
            items := updateItem s.items e.id
              (fun i => { i with quantity := i.quantity + qty }),
            movements := s.movements ++
              [{ itemName := e.name, itemType := e.itype, itemSize := e.size,
                 quantity := e.quantity + qty, movementType := "addition",
                 fromBag := none, toBag := some bag.name,
                 notes := "Added manually", patientName := none,
                 expiry := none, timestamp := s.now }],
            undoActions :=
              { id := s.nextUndoId, actionType := "add_item",
                data := .addItem e.name e.itype e.brand e.size
                  (e.quantity + qty) e.expiry bag.id bag.name
                  (some s.nextProductId) false,
                description := "Added " ++ toString (e.quantity + qty) ++
                  " " ++ e.name ++ " to " ++ bag.name,
                userId := uid, timestamp := s.now, isUsed := false } ::
                s.undoActions,
            nextProductId := s.nextProductId + 1,
            nextUndoId := s.nextUndoId + 1, now := s.now + 1 }, true))) uid =
        some
          { id := s.nextUndoId, actionType := "add_item",
            data := .addItem e.name e.itype e.brand e.size (e.quantity + qty)
              e.expiry bag.id bag.name (some s.nextProductId) false,
            description := "Added " ++ toString (e.quantity + qty) ++ " " ++
              e.name ++ " to " ++ bag.name,
            userId := uid, timestamp := s.now, isUsed := false } := by
      simp only [newestUnconsumed]
      exact List.find?_cons_of_pos _ (by simp)
    simp only [undo_last_action, hfound, hsel _ rfl]
    refine ⟨trivial, rfl, ?_, rfl, ?_⟩
    · show removeItemById (updateItem s.items e.id
        (fun i => { i with quantity := i.quantity + qty })) e.id =
        removeItemById s.items e.id
      exact removeItemById_updateItem _ _ _ (fun i => rfl)
    · exact hmovs _ (by simp [additionMovementMatch])

def demoGauze : ItemRow :=
  { id := 1, name := "Sterile Gauze 4x4",
    itype := "Consumable Dressings/Swabs", brand := none, size := none,
    genericName := none, quantity := 10, expiry := none, bagId := 1,
    productId := some 1 }

def demoGauzeProduct : ProductRow :=
  { id := 1, name := "Sterile Gauze 4x4",
    ptype := "Consumable Dressings/Swabs", minimumStock := 0 }

/-- Demo state for additions: one gauze record (quantity 10) in the Cabinet
and its catalog product. -/
def demoAddDB : DB :=
  { bags := [demoCabinet, demoBag], items := [demoGauze],
    products := [demoGauzeProduct], movements := [], undoActions := [],
    permDeletions := [], bagMinimums := [], audits := [], nextItemId := 2,
    nextBagId := 3, nextProductId := 2, nextUndoId := 1, now := 0 }

/-- Witness for C4: adding 5 gauze to the existing record of 10 and undoing
deletes the whole merged record, keeps the product, and removes the
addition movement. -/
theorem C4_undo_addition_witness :
    (handle_manual_addition demoAddDB 7 1 none "Sterile Gauze 4x4"
      "Consumable Dressings/Swabs" none none 5 none 0).2 = true ∧
    (undo_last_action (handle_manual_addition demoAddDB 7 1 none
      "Sterile Gauze 4x4" "Consumable Dressings/Swabs" none none 5 none
      0).1 7).2 = .ok ∧
    (undo_last_action (handle_manual_addition demoAddDB 7 1 none
      "Sterile Gauze 4x4" "Consumable Dressings/Swabs" none none 5 none
      0).1 7).1.items = removeItemById demoAddDB.items 1 ∧
    (undo_last_action (handle_manual_addition demoAddDB 7 1 none
      "Sterile Gauze 4x4" "Consumable Dressings/Swabs" none none 5 none
      0).1 7).1.products =
      (handle_manual_addition demoAddDB 7 1 none "Sterile Gauze 4x4"
        "Consumable Dressings/Swabs" none none 5 none 0).1.products ∧
    (undo_last_action (handle_manual_addition demoAddDB 7 1 none
      "Sterile Gauze 4x4" "Consumable Dressings/Swabs" none none 5 none
      0).1 7).1.movements = demoAddDB.movements :=
  C4_undo_addition demoAddDB 7 1 none "Sterile Gauze 4x4"
    "Consumable Dressings/Swabs" none none 5 none 0 demoCabinet demoGauze
    (by decide) (by decide) (by decide) (by decide) (by decide) (by decide)
    (by decide)

/-- C4 counterexample: the claim says undoing a merged addition decrements
the existing record by exactly the added amount (10 + 5 followed by undo
must leave 10).  On the demo state the undo instead deletes the merged
record outright: no gauze record remains and the key's total is 0, not
10. -/
theorem C4_counterexample :
    (undo_last_action (handle_manual_addition demoAddDB 7 1 none
      "Sterile Gauze 4x4" "Consumable Dressings/Swabs" none none 5 none
      0).1 7).2 = .ok ∧
    (undo_last_action (handle_manual_addition demoAddDB 7 1 none
      "Sterile Gauze 4x4" "Consumable Dressings/Swabs" none none 5 none
      0).1 7).1.items = [] ∧
    keyTotal (undo_last_action (handle_manual_addition demoAddDB 7 1 none
      "Sterile Gauze 4x4" "Consumable Dressings/Swabs" none none 5 none
      0).1 7).1.items "Sterile Gauze 4x4" "Consumable Dressings/Swabs"
      none none none 1 = 0 := by
  decide

/-! ## C1: undo of the immediately preceding action -/

/-- C1 counterexample: a batched (multi) transfer records a
`multi_transfer` compensating action that `undo_last_action` does not
dispatch.  On the demo state, after a batched transfer of 10 saline units,
the undo answers `Unknown action type`, the action stays unconsumed, and
nothing is restored: the state (items and ledger included) is returned
exactly as it was after the transfer, which differs from the pre-action
state. -/
theorem C1_counterexample :
    (handle_multi_transfer demoDB 7 2 [(1, 10)]).2 = true ∧
    undo_last_action (handle_multi_transfer demoDB 7 2 [(1, 10)]).1 7 =
      ((handle_multi_transfer demoDB 7 2 [(1, 10)]).1, .err) ∧
    (handle_multi_transfer demoDB 7 2 [(1, 10)]).1.items ≠ demoDB.items ∧
    (handle_multi_transfer demoDB 7 2 [(1, 10)]).1.movements ≠
      demoDB.movements := by
  decide

/-- C1 (amended): undoing an immediately preceding *single* transfer whose
destination record was newly created and whose source record was retained
restores the Item table and the MovementHistory exactly, provided the
selector keys are unambiguous (no other record with the same name in the
destination bag, no other matching transfer movement).  Batched transfers
are not restorable at all (see the counterexample). -/
theorem C1_undo_single_transfer (s : DB) (uid itemId toBagId : Nat)
    (q : Int) (it : ItemRow) (toBag fromBag : BagRow)
    (hWF : ItemsWF s.items s.nextItemId)
    (hit : findItemById s.items itemId = some it)
    (htb : findBagById s.bags toBagId = some toBag)
    (hfb : findBagById s.bags it.bagId = some fromBag)
    (hq : 0 < q) (hlt : q < it.quantity) (hbag : it.bagId ≠ toBagId)
    (hnokey : findItemByKey s.items it.name it.itype it.brand it.size
      it.expiry toBagId = none)
    (hnoname : ∀ i ∈ s.items,
      ¬ (i.name = it.name ∧ i.bagId = toBagId))
    (hnomov : ∀ m ∈ s.movements,
      transferMovementMatch it.name fromBag.name toBag.name q m = false) :
    (handle_transfer s uid itemId toBagId q).2 = true ∧
    (undo_last_action (handle_transfer s uid itemId toBagId q).1 uid).2 =
      .ok ∧
    (undo_last_action (handle_transfer s uid itemId toBagId q).1 uid).1.items
      = s.items ∧
    (undo_last_action (handle_transfer s uid itemId toBagId
      q).1 uid).1.movements = s.movements := by
  obtain ⟨hnd, hltid⟩ := hWF
  have hitid : it.id = itemId :=
    of_decide_eq_true (List.find?_some (p := fun i : ItemRow => decide (i.id = itemId))
      (by simpa [findItemById] using hit))
  have hitmem : it ∈ s.items := List.mem_of_find?_eq_some
    (p := fun i : ItemRow => decide (i.id = itemId))
    (by simpa [findItemById] using hit)
  have htbid : toBag.id = toBagId :=
    of_decide_eq_true (List.find?_some (p := fun b : BagRow => decide (b.id = toBagId))
      (by simpa [findBagById] using htb))
  have hfbid : fromBag.id = it.bagId :=
    of_decide_eq_true (List.find?_some
      (p := fun b : BagRow => decide (b.id = it.bagId))
      (by simpa [findBagById] using hfb))
  have hfb2 : findBagById s.bags fromBag.id = some fromBag := by
    rw [hfbid]; exact hfb
  have htb2 : findBagById s.bags toBag.id = some toBag := by
    rw [htbid]; exact htb
  have hdel : ¬ (it.quantity - q ≤ 0) := by omega
  have hle : ¬ (it.quantity < q) := by omega
  have hq0 : ¬ (q ≤ 0) := by omega
  have hrun1 : handle_transfer s uid itemId toBagId q =
      ({ s with
          items := updateItem (s.items ++
              [{ id := s.nextItemId, name := it.name, itype := it.itype,
                 brand := it.brand, size := it.size, genericName := none,
                 quantity := q, expiry := it.expiry, bagId := toBagId,
                 productId := it.productId }]) itemId
            (fun i => { i with quantity := i.quantity - q }),
          movements := s.movements ++
            [{ itemName := it.name, itemType := it.itype,
               itemSize := it.size, quantity := q,
               movementType := "transfer", fromBag := some fromBag.name,
               toBag := some toBag.name,
               notes := "Transferred " ++ toString q ++ " units",
               patientName := none, expiry := none, timestamp := s.now }],
          undoActions :=
            { id := s.nextUndoId, actionType := "transfer",
              data := .transferData it.id fromBag.id toBag.id q it.name
                it.itype it.brand it.size it.expiry it.productId none true
                false it.quantity,
              description := "Transfer " ++ toString q ++ " " ++ it.name ++
                " from " ++ fromBag.name ++ " to " ++ toBag.name,
              userId := uid, timestamp := s.now, isUsed := false } ::
              s.undoActions,
          nextItemId := s.nextItemId + 1,
          nextUndoId := s.nextUndoId + 1, now := s.now + 1 }, true) := by
    simp only [handle_transfer, hit, htb, hfb, hnokey, hq0, hle, hbag,
      hdel, if_false, ite_false, decide_eq_true_eq]
    rfl
  rw [hrun1]
  have hnw_ne : s.nextItemId ≠ itemId := by
    intro h
    have := hltid it hitmem
    omega
  have hupd_pre : updateItem (s.items ++
      [{ id := s.nextItemId, name := it.name, itype := it.itype,
         brand := it.brand, size := it.size, genericName := none,
         quantity := q, expiry := it.expiry, bagId := toBagId,
         productId := it.productId }]) itemId
      (fun i => { i with quantity := i.quantity - q }) =
      updateItem s.items itemId
        (fun i => { i with quantity := i.quantity - q }) ++
      [{ id := s.nextItemId, name := it.name, itype := it.itype,
         brand := it.brand, size := it.size, genericName := none,
         quantity := q, expiry := it.expiry, bagId := toBagId,
         productId := it.productId }] := by
    rw [updateItem_append]
    congr 1
    refine updateItem_of_not_mem (fun i hi hieq => ?_)
    simp only [List.mem_singleton] at hi
    subst hi
    exact hnw_ne hieq
  have hfound : newestUnconsumed (Prod.fst (α := DB) (β := Bool)
      (({ s with
          items := updateItem (s.items ++
              [{ id := s.nextItemId, name := it.name, itype := it.itype,
                 brand := it.brand, size := it.size, genericName := none,
                 quantity := q, expiry := it.expiry, bagId := toBagId,
                 productId := it.productId }]) itemId
            (fun i => { i with quantity := i.quantity - q }),
          movements := s.movements ++
            [{ itemName := it.name, itemType := it.itype,
               itemSize := it.size, quantity := q,
               movementType := "transfer", fromBag := some fromBag.name,
               toBag := some toBag.name,
               notes := "Transferred " ++ toString q ++ " units",
               patientName := none, expiry := none, timestamp := s.now }],
          undoActions :=
            { id := s.nextUndoId, actionType := "transfer",
              data := .transferData it.id fromBag.id toBag.id q it.name
                it.itype it.brand it.size it.expiry it.productId none true
                false it.quantity,
              description := "Transfer " ++ toString q ++ " " ++ it.name ++
                " from " ++ fromBag.name ++ " to " ++ toBag.name,
              userId := uid, timestamp := s.now, isUsed := false } ::
              s.undoActions,
          nextItemId := s.nextItemId + 1,
          nextUndoId := s.nextUndoId + 1, now := s.now + 1 }, true))) uid =
      some
        { id := s.nextUndoId, actionType := "transfer",
          data := .transferData it.id fromBag.id toBag.id q it.name
            it.itype it.brand it.size it.expiry it.productId none true
            false it.quantity,
          description := "Transfer " ++ toString q ++ " " ++ it.name ++
            " from " ++ fromBag.name ++ " to " ++ toBag.name,
          userId := uid, timestamp := s.now, isUsed := false } := by
    simp only [newestUnconsumed]
    exact List.find?_cons_of_pos _ (by simp)
  have hdsel : (updateItem (s.items ++
      [{ id := s.nextItemId, name := it.name, itype := it.itype,
         brand := it.brand, size := it.size, genericName := none,
         quantity := q, expiry := it.expiry, bagId := toBagId,
         productId := it.productId }]) itemId
      (fun i => { i with quantity := i.quantity - q })).find?
      (fun i => decide (i.name = it.name) && decide (i.bagId = toBag.id)) =
      some { id := s.nextItemId, name := it.name, itype := it.itype,
             brand := it.brand, size := it.size, genericName := none,
             quantity := q, expiry := it.expiry, bagId := toBagId,
             productId := it.productId } := by
    rw [hupd_pre]
    refine find?_unique (List.mem_append_right _ (List.mem_singleton.mpr
      rfl)) (by simp [htbid]) ?_
    intro b hb hPb
    simp only [Bool.and_eq_true, decide_eq_true_eq] at hPb
    rcases List.mem_append.mp hb with hb' | hb'
    · obtain ⟨i, hi, hbi⟩ := List.mem_map.mp hb'
      exfalso
      refine hnoname i hi ?_
      by_cases hid : i.id = itemId
      · rw [if_pos hid] at hbi
        subst hbi
        exact ⟨hPb.1, htbid ▸ hPb.2⟩
      · rw [if_neg hid] at hbi
        subst hbi
        exact ⟨hPb.1, htbid ▸ hPb.2⟩
    · simpa using hb'
  have hsing : removeItemById
      [{ id := s.nextItemId, name := it.name, itype := it.itype,
         brand := it.brand, size := it.size, genericName := none,
         quantity := q, expiry := it.expiry, bagId := toBagId,
         productId := it.productId }] s.nextItemId = [] := by
    simp [removeItemById]
  have hids : ∀ i ∈ updateItem s.items itemId
      (fun i => { i with quantity := i.quantity - q }), i.id ≠ s.nextItemId := by
    intro i hi
    have hmm : i.id ∈ (updateItem s.items itemId
        (fun i => { i with quantity := i.quantity - q })).map (·.id) :=
      List.mem_map_of_mem _ hi
    rw [updateItem_map_id (f := fun i => { i with quantity := i.quantity - q })
      (fun i => rfl)] at hmm
    obtain ⟨j, hj, hji⟩ := List.mem_map.mp hmm
    intro hieq
    have := hltid j hj
    omega
  refine ⟨rfl, ?_⟩
  simp only [undo_last_action, hfound, hfb2, htb2, hdsel]
  refine ⟨?_, ?_, ?_⟩
  · rfl
  · show updateItem (removeItemById (updateItem (s.items ++
        [{ id := s.nextItemId, name := it.name, itype := it.itype,
           brand := it.brand, size := it.size, genericName := none,
           quantity := q, expiry := it.expiry, bagId := toBagId,
           productId := it.productId }]) itemId
        (fun i => { i with quantity := i.quantity - q })) s.nextItemId)
        it.id (fun i => { i with quantity := i.quantity + q }) = s.items
    rw [hitid]
    rw [hupd_pre, removeItemById_append, hsing, List.append_nil,
      removeItemById_of_not_mem hids,
      updateItem_comp _ _
        (fun i : ItemRow => { i with quantity := i.quantity - q })
        (fun i : ItemRow => { i with quantity := i.quantity + q })
        (fun i => rfl)]
    refine updateItem_eq_self _ _ _ (fun i => ?_)
    show ({ i with quantity := i.quantity - q + q } : ItemRow) = i
    rw [sub_add_cancel]
  · show (s.movements ++
        [({ itemName := it.name, itemType := it.itype, itemSize := it.size,
            quantity := q, movementType := "transfer",
            fromBag := some fromBag.name, toBag := some toBag.name,
            notes := "Transferred " ++ toString q ++ " units",
            patientName := none, expiry := none,
            timestamp := s.now } : MovementRow)]).filter
      (fun m => !transferMovementMatch it.name fromBag.name toBag.name q m)
      = s.movements
    rw [List.filter_append,
      List.filter_eq_self.mpr (fun m hm => by simp [hnomov m hm]),
      List.filter_cons_of_neg (by simp [transferMovementMatch]),
      List.filter_nil, List.append_nil]

/-- Witness for C1: on the demo state, a single transfer of 10 saline
units from the Cabinet to Emergency Bag 1 followed by an undo restores
the Item table and the MovementHistory exactly. -/
theorem C1_undo_single_transfer_witness :
    (handle_transfer demoDB 7 1 2 10).2 = true ∧
    (undo_last_action (handle_transfer demoDB 7 1 2 10).1 7).2 = .ok ∧
    (undo_last_action (handle_transfer demoDB 7 1 2 10).1 7).1.items
      = demoDB.items ∧
    (undo_last_action (handle_transfer demoDB 7 1 2 10).1 7).1.movements
      = demoDB.movements :=
  C1_undo_single_transfer demoDB 7 1 2 10 demoSaline demoBag demoCabinet
    ⟨by decide, by decide⟩ (by decide) (by decide) (by decide) (by decide)
    (by decide) (by decide) (by decide) (by decide) (by decide)
